import Mathlib

/-!
# The uinput wrapper (`app/src/main/cpp/uinput_wrapper.c`)

A shallow embedding of the three JNI entry points of the wrapper
(`nativeInit`, `nativeClose`, `nativeSendEvent`) and of the helper
`send_event`.

The C code is a sequence of calls into the operating system (`open`,
`ioctl`, `write`, `close`) and into the Android logger.  Each function is
embedded as a state transformer over a `World`: the state of the
environment, the thread's `errno`, and the trace of the calls issued so
far with the reply each one got.  The environment is an arbitrary
deterministic machine (`Sys`), so a statement proved for every `Sys` holds
for every possible outcome of every call.

What is assumed of the platform:
* a call either returns a non-negative value and leaves `errno` alone, or
  returns `-1` and stores a positive error number in `errno`;
* a log statement is a call as well: it may fail and change `errno`, and its
  result is never used;
* the records `struct input_event` and `struct uinput_user_dev` and the
  numeric constants are those of the Linux headers the source includes.

The file first gives the embedding and the vocabulary to speak about runs,
then proves the properties of creation (`nativeInit`), event injection
(`nativeSendEvent`), destruction (`nativeClose`) and of sequences of these
operations.
-/

namespace UInput

/-! ## Constants of the platform headers the source includes

The source includes `linux/input.h`, `linux/uinput.h`, `errno.h` and
`fcntl.h`; these headers belong to the platform, not to the repository.  The
constants and the record layouts below are those of the Linux user-space API
on the 64-bit targets of the application. -/

/-- Event class `EV_SYN` of `linux/input-event-codes.h`. -/
def EV_SYN : Nat := 0x00
/-- Event class `EV_KEY`. -/
def EV_KEY : Nat := 0x01
/-- Event class `EV_ABS`. -/
def EV_ABS : Nat := 0x03

/-- Key codes of `linux/input-event-codes.h`. -/
def BTN_A : Nat := 0x130
def BTN_B : Nat := 0x131
def BTN_X : Nat := 0x133
def BTN_Y : Nat := 0x134
def BTN_TL : Nat := 0x136
def BTN_TR : Nat := 0x137
def BTN_SELECT : Nat := 0x13a
def BTN_START : Nat := 0x13b
def BTN_MODE : Nat := 0x13c
def BTN_THUMBL : Nat := 0x13d
def BTN_THUMBR : Nat := 0x13e

/-- Axis codes of `linux/input-event-codes.h`. -/
def ABS_X : Nat := 0x00
def ABS_Y : Nat := 0x01
def ABS_Z : Nat := 0x02
def ABS_RX : Nat := 0x03
def ABS_RY : Nat := 0x04
def ABS_RZ : Nat := 0x05
def ABS_HAT0X : Nat := 0x10
def ABS_HAT0Y : Nat := 0x11
/-- Number of absolute axes, the length of the four per-axis arrays. -/
def ABS_CNT : Nat := 0x40

/-- Bus type `BUS_VIRTUAL` of `linux/input.h`. -/
def BUS_VIRTUAL : Nat := 0x06
/-- Size of the name field of `struct uinput_user_dev`. -/
def UINPUT_MAX_NAME_SIZE : Nat := 80

/-- Error number `ENODEV` of `errno.h`. -/
def ENODEV : Int := 19
/-- Error number `EBADF` of `errno.h`. -/
def EBADF : Int := 9

/-- Flag `O_WRONLY` of `fcntl.h`. -/
def O_WRONLY : Nat := 0x1
/-- Flag `O_NONBLOCK` of `fcntl.h` (octal 04000). -/
def O_NONBLOCK : Nat := 0x800

/-- Conversion of a C `int` to `__u16`: reduction modulo `2^16`. -/
def u16 (x : Int) : Nat := (x % 65536).toNat

/-! ## Records written to the channel -/

/-- The record `struct input_event` of `linux/input.h`: a `struct timeval`,
then `__u16 type`, `__u16 code`, `__s32 value`. -/
structure input_event where
  time_sec : Int
  time_usec : Int
  type : Nat
  code : Nat
  value : Int
deriving DecidableEq

/-- The record `struct input_id`: four `__u16` fields. -/
structure input_id where
  bustype : Nat
  vendor : Nat
  product : Nat
  version : Nat
deriving DecidableEq

/-- The record `struct uinput_user_dev` of `linux/uinput.h`. -/
structure uinput_user_dev where
  name : List Char
  id : input_id
  ff_effects_max : Nat
  absmax : List Int
  absmin : List Int
  absfuzz : List Int
  absflat : List Int
deriving DecidableEq

/-- Size in bytes of `struct input_event` on an LP64 target: 16 + 2 + 2 + 4
(it is 16 on a 32-bit target). -/
def sizeof_input_event : Nat := 24
/-- Size in bytes of `struct uinput_user_dev`: 80 + 8 + 4 + 4 * 64 * 4. -/
def sizeof_uinput_user_dev : Nat := 1116

/-- The effect of `memset(&ev, 0, sizeof(ev))`. -/
def input_event.zero : input_event :=
  { time_sec := 0, time_usec := 0, type := 0, code := 0, value := 0 }

/-- The assignment to `ev.type`. -/
def input_event.set_type (ev : input_event) (v : Nat) : input_event := { ev with type := v }

/-- The assignment to `ev.code`. -/
def input_event.set_code (ev : input_event) (v : Nat) : input_event := { ev with code := v }

/-- The assignment to `ev.value`. -/
def input_event.set_value (ev : input_event) (v : Int) : input_event := { ev with value := v }

/-- The effect of `memset(&uidev, 0, sizeof(uidev))`. -/
def uinput_user_dev.zero : uinput_user_dev :=
  { name := List.replicate UINPUT_MAX_NAME_SIZE (Char.ofNat 0),
    id := { bustype := 0, vendor := 0, product := 0, version := 0 },
    ff_effects_max := 0,
    absmax := List.replicate ABS_CNT 0,
    absmin := List.replicate ABS_CNT 0,
    absfuzz := List.replicate ABS_CNT 0,
    absflat := List.replicate ABS_CNT 0 }

/-- The assignment to `uidev.name`. -/
def uinput_user_dev.set_name (d : uinput_user_dev) (v : List Char) : uinput_user_dev :=
  { d with name := v }

/-- The assignment `uidev.id.bustype = v`. -/
def uinput_user_dev.set_id_bustype (d : uinput_user_dev) (v : Nat) : uinput_user_dev :=
  { d with id := { d.id with bustype := v } }

/-- The assignment `uidev.id.vendor = v`. -/
def uinput_user_dev.set_id_vendor (d : uinput_user_dev) (v : Nat) : uinput_user_dev :=
  { d with id := { d.id with vendor := v } }

/-- The assignment `uidev.id.product = v`. -/
def uinput_user_dev.set_id_product (d : uinput_user_dev) (v : Nat) : uinput_user_dev :=
  { d with id := { d.id with product := v } }

/-- The assignment `uidev.id.version = v`. -/
def uinput_user_dev.set_id_version (d : uinput_user_dev) (v : Nat) : uinput_user_dev :=
  { d with id := { d.id with version := v } }

/-- The assignment `uidev.absmin[i] = v`. -/
def uinput_user_dev.set_absmin (d : uinput_user_dev) (i : Nat) (v : Int) : uinput_user_dev :=
  { d with absmin := d.absmin.set i v }

/-- The assignment `uidev.absmax[i] = v`. -/
def uinput_user_dev.set_absmax (d : uinput_user_dev) (i : Nat) (v : Int) : uinput_user_dev :=
  { d with absmax := d.absmax.set i v }

/-- The assignment `uidev.absfuzz[i] = v`. -/
def uinput_user_dev.set_absfuzz (d : uinput_user_dev) (i : Nat) (v : Int) : uinput_user_dev :=
  { d with absfuzz := d.absfuzz.set i v }

/-- The assignment `uidev.absflat[i] = v`. -/
def uinput_user_dev.set_absflat (d : uinput_user_dev) (i : Nat) (v : Int) : uinput_user_dev :=
  { d with absflat := d.absflat.set i v }

/-- The effect of `snprintf(buf, size, s)` for a format without
conversions: at most `size - 1` characters of `s`, then a NUL; the rest of
the buffer is left as it was. -/
def snprintf (buf : List Char) (size : Nat) (s : String) : List Char :=
  if size = 0 then buf
  else
    let body := s.toList.take (size - 1)
    body ++ [Char.ofNat 0] ++ buf.drop (body.length + 1)

/-! ## Calls, replies and the environment -/

/-- The `ioctl` requests of `linux/uinput.h` the source issues. -/
inductive Request where
  | UI_SET_EVBIT
  | UI_SET_KEYBIT
  | UI_SET_ABSBIT
  | UI_DEV_CREATE
  | UI_DEV_DESTROY
deriving DecidableEq

/-- Priorities of the Android logger used by `LOGI`, `LOGD`, `LOGE`, `LOGW`. -/
inductive LogLevel where
  | info
  | debug
  | error
  | warn
deriving DecidableEq

/-- What a `write` transmits: one of the two records above. -/
inductive Payload where
  | event (ev : input_event)
  | user_dev (dev : uinput_user_dev)
deriving DecidableEq

/-- A call the wrapper issues into its environment.  `android_log` stands
for one `LOGx(...)` statement (with the `strerror` evaluated for its
arguments); it is identified by its format string. -/
inductive Call where
  | sys_open (path : String) (flags : Nat)
  | sys_ioctl (fd : Int) (req : Request) (arg : Option Int)
  | sys_write (fd : Int) (buf : Payload) (count : Nat)
  | sys_close (fd : Int)
  | android_log (level : LogLevel) (fmt : String)
deriving DecidableEq

/-- An error number: a positive integer (no function stores zero in `errno`). -/
abbrev Errno := { e : Int // 0 < e }

/-- The outcome of a call, as the C library reports it: the call returns a
non-negative value and leaves `errno` alone, or it returns `-1` and stores an
error number in `errno`. -/
inductive Reply where
  | ok (ret : Nat)
  | error (e : Errno)
deriving DecidableEq

/-- The value the call returns to the C code. -/
def Reply.ret : Reply → Int
  | .ok n => (n : Int)
  | .error _ => -1

/-- The value of `errno` after the call, given its value before. -/
def Reply.errnoAfter : Reply → Int → Int
  | .ok _, old => old
  | .error e, _ => e.val

/-- One issued call together with the reply it got. -/
structure Entry where
  call : Call
  reply : Reply
deriving DecidableEq

/-- An environment: a deterministic machine over states `σ` that answers
each call and moves to a new state. -/
structure Sys (σ : Type) where
  step : σ → Call → Reply × σ

/-- The state a function of the wrapper runs in. -/
structure World (σ : Type) where
  kernel : σ
  errno : Int
  trace : List Entry

/-- Computations of the wrapper: state transformers over `World`. -/
def M (σ : Type) (α : Type) : Type := World σ → α × World σ

/-- Sequencing of computations: the second one runs in the world the first
one leaves. -/
instance instMonadM (σ : Type) : Monad (M σ) where
  pure a := fun w => (a, w)
  bind m f := fun w =>
    match m w with
    | (a, w') => f a w'

/-- Issue a call: the environment answers, `errno` and the trace are updated,
and the C code gets the return value. -/
def call {σ : Type} (sys : Sys σ) (c : Call) : M σ Int := fun w =>
  match sys.step w.kernel c with
  | (r, k) => (r.ret, { kernel := k, errno := r.errnoAfter w.errno, trace := w.trace ++ [⟨c, r⟩] })

/-- Read `errno`. -/
def get_errno {σ : Type} : M σ Int := fun w => (w.errno, w)

/-- One `LOGx(fmt, ...)` statement; its result is not used. -/
def log {σ : Type} (sys : Sys σ) (level : LogLevel) (fmt : String) : M σ Unit := do
  let _r ← call sys (.android_log level fmt)
  pure ()

/-- The C operator `a || b` on two conditions with effects: `b` is not
evaluated when `a` holds. -/
def c_or {σ : Type} (a b : M σ Bool) : M σ Bool := do
  if (← a) then pure true else b

/-- The C condition `e < 0` for an expression `e` with effects. -/
def is_neg {σ : Type} (e : M σ Int) : M σ Bool := do
  let r ← e
  pure (decide (r < 0))

/-! ## The source functions -/

/-- The helper `send_event` (lines 35-58). -/
def send_event {σ : Type} (sys : Sys σ) (fd type code value : Int) : M σ Int := do
  if fd < 0 then
    log sys .error "send_event: Invalid file descriptor %d"
    pure (-1)
  else
    let ev := input_event.zero
    let ev := ev.set_type (u16 type)
    let ev := ev.set_code (u16 code)
    let ev := ev.set_value value
    if (← call sys (.sys_write fd (.event ev) sizeof_input_event)) < 0 then
      log sys .error "send_event: Error writing event (type=%d, code=%d, value=%d): %s (errno %d)"
      pure (-(← get_errno))
    else
      pure 0

/-- The candidate device nodes, in the order of the array `uinput_paths`. -/
def uinput_paths : List String :=
  ["/dev/uinput", "/dev/input/uinput", "/dev/misc/uinput"]

/-- The loop of `nativeInit` over `uinput_paths` (lines 73-80), started with
the current value of `fd`; it returns the final value of `fd`. -/
def open_loop {σ : Type} (sys : Sys σ) : List String → Int → M σ Int
  | [], fd => pure fd
  | p :: ps, _ => do
    let fd ← call sys (.sys_open p (O_WRONLY ||| O_NONBLOCK))
    if fd ≥ 0 then
      log sys .info "nativeInit: Opened %s successfully (fd=%d)"
      pure fd
    else
      log sys .warn "nativeInit: Failed to open %s: %s"
      open_loop sys ps fd

/-- An `ioctl` with an integer argument. -/
def ioctl {σ : Type} (sys : Sys σ) (fd : Int) (req : Request) (arg : Nat) : M σ Int :=
  call sys (.sys_ioctl fd req (some (arg : Int)))

/-- An `ioctl` without an argument. -/
def ioctl0 {σ : Type} (sys : Sys σ) (fd : Int) (req : Request) : M σ Int :=
  call sys (.sys_ioctl fd req none)

/-! ## The JNI entry points of class
`com.example.steamcontrollertoxboxapp.nativeimpl.UInputController` -/

namespace Java_com_example_steamcontrollertoxboxapp_nativeimpl_UInputController

/-- The button block of `nativeInit` (lines 110-122): eleven `UI_SET_KEYBIT`
requests whose results are not looked at. -/
def set_key_bits {σ : Type} (sys : Sys σ) (fd : Int) : M σ Unit := do
  log sys .debug "nativeInit: Setting key bits..."
  let _r ← ioctl sys fd .UI_SET_KEYBIT BTN_A
  let _r ← ioctl sys fd .UI_SET_KEYBIT BTN_B
  let _r ← ioctl sys fd .UI_SET_KEYBIT BTN_X
  let _r ← ioctl sys fd .UI_SET_KEYBIT BTN_Y
  let _r ← ioctl sys fd .UI_SET_KEYBIT BTN_TL
  let _r ← ioctl sys fd .UI_SET_KEYBIT BTN_TR
  let _r ← ioctl sys fd .UI_SET_KEYBIT BTN_SELECT
  let _r ← ioctl sys fd .UI_SET_KEYBIT BTN_START
  let _r ← ioctl sys fd .UI_SET_KEYBIT BTN_MODE
  let _r ← ioctl sys fd .UI_SET_KEYBIT BTN_THUMBL
  let _r ← ioctl sys fd .UI_SET_KEYBIT BTN_THUMBR
  pure ()

/-- The axis block of `nativeInit` (lines 125-165): eight `UI_SET_ABSBIT`
requests whose results are not looked at, and the ranges stored in `uidev`.
It returns `uidev` as it stands after the block. -/
def set_abs_bits {σ : Type} (sys : Sys σ) (fd : Int) (uidev : uinput_user_dev) :
    M σ uinput_user_dev := do
  log sys .debug "nativeInit: Setting abs bits and ranges..."
  let _r ← ioctl sys fd .UI_SET_ABSBIT ABS_X
  let uidev := uidev.set_absmin ABS_X (-32768)
  let uidev := uidev.set_absmax ABS_X 32767
  let uidev := uidev.set_absfuzz ABS_X 16
  let uidev := uidev.set_absflat ABS_X 128
  let _r ← ioctl sys fd .UI_SET_ABSBIT ABS_Y
  let uidev := uidev.set_absmin ABS_Y (-32768)
  let uidev := uidev.set_absmax ABS_Y 32767
  let uidev := uidev.set_absfuzz ABS_Y 16
  let uidev := uidev.set_absflat ABS_Y 128
  let _r ← ioctl sys fd .UI_SET_ABSBIT ABS_RX
  let uidev := uidev.set_absmin ABS_RX (-32768)
  let uidev := uidev.set_absmax ABS_RX 32767
  let uidev := uidev.set_absfuzz ABS_RX 16
  let uidev := uidev.set_absflat ABS_RX 128
  let _r ← ioctl sys fd .UI_SET_ABSBIT ABS_RY
  let uidev := uidev.set_absmin ABS_RY (-32768)
  let uidev := uidev.set_absmax ABS_RY 32767
  let uidev := uidev.set_absfuzz ABS_RY 16
  let uidev := uidev.set_absflat ABS_RY 128
  let _r ← ioctl sys fd .UI_SET_ABSBIT ABS_Z
  let uidev := uidev.set_absmin ABS_Z 0
  let uidev := uidev.set_absmax ABS_Z 255
  let _r ← ioctl sys fd .UI_SET_ABSBIT ABS_RZ
  let uidev := uidev.set_absmin ABS_RZ 0
  let uidev := uidev.set_absmax ABS_RZ 255
  let _r ← ioctl sys fd .UI_SET_ABSBIT ABS_HAT0X
  let uidev := uidev.set_absmin ABS_HAT0X (-1)
  let uidev := uidev.set_absmax ABS_HAT0X 1
  let _r ← ioctl sys fd .UI_SET_ABSBIT ABS_HAT0Y
  let uidev := uidev.set_absmin ABS_HAT0Y (-1)
  let uidev := uidev.set_absmax ABS_HAT0Y 1
  pure uidev

/-- The end of `nativeInit` (lines 167-184): write the descriptor, commit. -/
def write_and_create {σ : Type} (sys : Sys σ) (fd : Int) (uidev : uinput_user_dev) :
    M σ Int := do
  log sys .debug "nativeInit: Writing device info..."
  if (← call sys (.sys_write fd (.user_dev uidev) sizeof_uinput_user_dev)) < 0 then
    log sys .error "nativeInit: Error writing device info: %s"
    let _r ← call sys (.sys_close fd)
    pure (-(← get_errno))
  else
    log sys .debug "nativeInit: Creating device node..."
    if (← ioctl0 sys fd .UI_DEV_CREATE) < 0 then
      log sys .error "nativeInit: Error creating virtual device node: %s"
      let _r ← call sys (.sys_close fd)
      pure (-(← get_errno))
    else
      log sys .info "nativeInit: Virtual input device '%s' created successfully (fd=%d)"
      pure fd

/-- The part of `nativeInit` after a channel has been opened (lines 86-184). -/
def configure_device {σ : Type} (sys : Sys σ) (fd : Int) : M σ Int := do
  let uidev := uinput_user_dev.zero
  let uidev := uidev.set_name
    (snprintf uidev.name UINPUT_MAX_NAME_SIZE "Xbox 360 Controller (Virtual)")
  let uidev := uidev.set_id_bustype (u16 BUS_VIRTUAL)
  let uidev := uidev.set_id_vendor (u16 0x045e)
  let uidev := uidev.set_id_product (u16 0x028e)
  let uidev := uidev.set_id_version (u16 0x0110)
  log sys .debug "nativeInit: Setting event bits..."
  if (← c_or (is_neg (ioctl sys fd .UI_SET_EVBIT EV_SYN))
        (c_or (is_neg (ioctl sys fd .UI_SET_EVBIT EV_KEY))
              (is_neg (ioctl sys fd .UI_SET_EVBIT EV_ABS)))) then
    log sys .error "nativeInit: Error setting EV bits: %s"
    let _r ← call sys (.sys_close fd)
    pure (-(← get_errno))
  else
    set_key_bits sys fd
    let uidev ← set_abs_bits sys fd uidev
    write_and_create sys fd uidev

/-- The function `nativeInit` (lines 61-185): open a channel, declare the
capabilities, write the descriptor, commit.  It returns the descriptor, or
a negative value. -/
def nativeInit {σ : Type} (sys : Sys σ) : M σ Int := do
  log sys .info "nativeInit: Attempting to open /dev/uinput..."
  let fd ← open_loop sys uinput_paths (-1)
  if fd < 0 then
    log sys .error "nativeInit: Failed to open any uinput device. Check ROOT permissions."
    pure (-ENODEV)
  else
    configure_device sys fd

/-- The function `nativeClose` (lines 188-211). -/
def nativeClose {σ : Type} (sys : Sys σ) (fd : Int) : M σ Unit := do
  if fd < 0 then
    log sys .warn "nativeClose: Attempted to close invalid fd %d"
    pure ()
  else
    log sys .info "nativeClose: Destroying virtual device (fd=%d)..."
    if (← ioctl0 sys fd .UI_DEV_DESTROY) < 0 then
      log sys .error "nativeClose: Error destroying virtual device node: %s (errno %d)"
    else
      log sys .debug "nativeClose: UI_DEV_DESTROY successful."
    if (← call sys (.sys_close fd)) < 0 then
      log sys .error "nativeClose: Error closing file descriptor %d: %s (errno %d)"
    else
      log sys .info "nativeClose: Closed file descriptor %d."

/-- The function `nativeSendEvent` (lines 214-222): `JNI_TRUE` is `true`. -/
def nativeSendEvent {σ : Type} (sys : Sys σ) (fd type code value : Int) : M σ Bool := do
  if (← send_event sys fd type code value) < 0 then
    pure false
  else
    pure true

end Java_com_example_steamcontrollertoxboxapp_nativeimpl_UInputController

open Java_com_example_steamcontrollertoxboxapp_nativeimpl_UInputController

/-! ## Observing a run -/

/-- The entries a computation appends to the trace when run from `w`. -/
def issued {σ α : Type} (m : M σ α) (w : World σ) : List Entry :=
  (m w).2.trace.drop w.trace.length

/-- The value a computation returns when run from `w`. -/
def result {σ α : Type} (m : M σ α) (w : World σ) : α := (m w).1

/-- Whether the call returned an error (a negative value). -/
def Reply.failed : Reply → Bool
  | .ok _ => false
  | .error _ => true

/-- System calls, as opposed to log statements. -/
def Call.is_syscall : Call → Bool
  | .android_log _ _ => false
  | _ => true

/-- The system calls of a trace, in order. -/
def syscalls (tr : List Entry) : List Entry := tr.filter (fun e => e.call.is_syscall)

/-- The calls of a list of entries, without the replies. -/
def calls (tr : List Entry) : List Call := tr.map (fun e => e.call)

/-- An `open`. -/
def Call.is_open : Call → Bool
  | .sys_open _ _ => true
  | _ => false

/-- A `close`. -/
def Call.is_close : Call → Bool
  | .sys_close _ => true
  | _ => false

/-- A `write`. -/
def Call.is_write : Call → Bool
  | .sys_write _ _ _ => true
  | _ => false

/-- Event-class declarations: `ioctl(fd, UI_SET_EVBIT, _)`. -/
def Call.is_ev_decl : Call → Bool
  | .sys_ioctl _ .UI_SET_EVBIT _ => true
  | _ => false

/-- Per-key declarations: `ioctl(fd, UI_SET_KEYBIT, _)`. -/
def Call.is_key_decl : Call → Bool
  | .sys_ioctl _ .UI_SET_KEYBIT _ => true
  | _ => false

/-- Per-axis declarations: `ioctl(fd, UI_SET_ABSBIT, _)`. -/
def Call.is_abs_decl : Call → Bool
  | .sys_ioctl _ .UI_SET_ABSBIT _ => true
  | _ => false

/-- Capability declarations of any of the three kinds. -/
def Call.is_declaration (c : Call) : Bool :=
  c.is_ev_decl || c.is_key_decl || c.is_abs_decl

/-- The commit directive: `ioctl(fd, UI_DEV_CREATE)`. -/
def Call.is_commit : Call → Bool
  | .sys_ioctl _ .UI_DEV_CREATE _ => true
  | _ => false

/-- The steps of creation whose failure the code treats as fatal, once a
channel is open: an event-class declaration, the descriptor write, the
commit directive. -/
def Call.is_fatal_step (c : Call) : Bool :=
  c.is_ev_decl || c.is_write || c.is_commit

/-- The path an `open` is given. -/
def Call.path : Call → Option String
  | .sys_open p _ => some p
  | _ => none

/-- The descriptor a call operates on. -/
def Call.fd : Call → Option Int
  | .sys_ioctl fd _ _ => some fd
  | .sys_write fd _ _ => some fd
  | .sys_close fd => some fd
  | _ => none

/-- The descriptors of the channels a trace opens (successful `open`s). -/
def opened (tr : List Entry) : List Int :=
  tr.filterMap (fun e =>
    match e.call, e.reply with
    | .sys_open _ _, .ok n => some (n : Int)
    | _, _ => none)

/-- The descriptors a trace passes to `close`. -/
def closed (tr : List Entry) : List Int :=
  tr.filterMap (fun e =>
    match e.call with
    | .sys_close fd => some fd
    | _ => none)

/-- Creation met a fatal failure: no channel was opened, or a fatal step
returned an error. -/
def fatal_failure (tr : List Entry) : Bool :=
  (opened tr).isEmpty || tr.any (fun e => e.call.is_fatal_step && e.reply.failed)

/-- The records a trace writes as device descriptors. -/
def written_descriptors (tr : List Entry) : List uinput_user_dev :=
  tr.filterMap (fun e =>
    match e.call with
    | .sys_write _ (.user_dev d) _ => some d
    | _ => none)

/-- The key codes of the eleven buttons, in the order of the source. -/
def key_codes : List Nat :=
  [BTN_A, BTN_B, BTN_X, BTN_Y, BTN_TL, BTN_TR, BTN_SELECT, BTN_START, BTN_MODE,
   BTN_THUMBL, BTN_THUMBR]

/-- The codes of the eight axes, in the order of the source. -/
def axis_codes : List Nat :=
  [ABS_X, ABS_Y, ABS_RX, ABS_RY, ABS_Z, ABS_RZ, ABS_HAT0X, ABS_HAT0Y]

/-- The three event classes, in the order of the source. -/
def event_classes : List Nat := [EV_SYN, EV_KEY, EV_ABS]

/-- Every capability declaration of the creation protocol on channel `fd`,
in order: event classes, key codes, axis codes. -/
def declarations (fd : Int) : List Call :=
  event_classes.map (fun c => Call.sys_ioctl fd .UI_SET_EVBIT (some (c : Int))) ++
  key_codes.map (fun c => Call.sys_ioctl fd .UI_SET_KEYBIT (some (c : Int))) ++
  axis_codes.map (fun c => Call.sys_ioctl fd .UI_SET_ABSBIT (some (c : Int)))

/-- Check `R rpre e post` for every way to split a trace as
`pre ++ e :: post`, `rpre` being `pre` in reverse (started with what came
before the trace, in reverse). -/
def all_splits (R : List Entry → Entry → List Entry → Bool) :
    List Entry → List Entry → Bool
  | _, [] => true
  | racc, e :: es => R racc e es && all_splits R (e :: racc) es

/-- The call declares event class `c`. -/
def Call.declares_event (c : Nat) : Call → Bool
  | .sys_ioctl _ .UI_SET_EVBIT (some a) => a == (c : Int)
  | _ => false

/-! ## The device profile as the specification words it

A second, independent description of the descriptor record, to compare with
the record `nativeInit` builds. -/

/-- The display name of the device. -/
def device_name : String := "Xbox 360 Controller (Virtual)"

/-- The range and hints declared for one axis. -/
structure AxisRange where
  min : Int
  max : Int
  fuzz : Int
  flat : Int
deriving DecidableEq

/-- The four stick axes. -/
def stick_axes : List Nat := [ABS_X, ABS_Y, ABS_RX, ABS_RY]
/-- The two trigger axes. -/
def trigger_axes : List Nat := [ABS_Z, ABS_RZ]
/-- The two hat axes of the directional pad. -/
def hat_axes : List Nat := [ABS_HAT0X, ABS_HAT0Y]

/-- The profile of the specification: sticks -32768..32767 with fuzz 16 and
flat 128, triggers 0..255, hats -1..1, and zero everywhere else. -/
def axis_range (i : Nat) : AxisRange :=
  if i ∈ stick_axes then ⟨-32768, 32767, 16, 128⟩
  else if i ∈ trigger_axes then ⟨0, 255, 0, 0⟩
  else if i ∈ hat_axes then ⟨-1, 1, 0, 0⟩
  else ⟨0, 0, 0, 0⟩

/-- The fixed descriptor record of the specification. -/
def xbox360_descriptor : uinput_user_dev :=
  { name := device_name.toList ++
      List.replicate (UINPUT_MAX_NAME_SIZE - device_name.length) (Char.ofNat 0),
    id := { bustype := BUS_VIRTUAL, vendor := 0x045e, product := 0x028e, version := 0x0110 },
    ff_effects_max := 0,
    absmax := (List.range ABS_CNT).map (fun i => (axis_range i).max),
    absmin := (List.range ABS_CNT).map (fun i => (axis_range i).min),
    absfuzz := (List.range ABS_CNT).map (fun i => (axis_range i).fuzz),
    absflat := (List.range ABS_CNT).map (fun i => (axis_range i).flat) }

/-! ## Concrete environments -/

/-- The world a run starts from in the examples: `errno` zero, empty trace. -/
def world0 : World Unit := { kernel := (), errno := 0, trace := [] }

/-- An environment in which everything succeeds: `open` returns descriptor 3,
a `write` returns the number of bytes asked for, everything else returns 0. -/
def ideal : Sys Unit where
  step s c :=
    match c with
    | .sys_open _ _ => (.ok 3, s)
    | .sys_write _ _ n => (.ok n, s)
    | _ => (.ok 0, s)

/-- An environment without the device: every `open` fails with `ENODEV`. -/
def no_device : Sys Unit where
  step s c :=
    match c with
    | .sys_open _ _ => (.error ⟨ENODEV, by decide⟩, s)
    | _ => (.ok 0, s)

/-- An environment whose `write` transmits 8 bytes only, whatever was asked. -/
def short_write : Sys Unit where
  step s c :=
    match c with
    | .sys_open _ _ => (.ok 3, s)
    | .sys_write _ _ _ => (.ok 8, s)
    | _ => (.ok 0, s)

/-- An environment that rejects every axis declaration with `EINVAL` (22) and
is `ideal` otherwise. -/
def axes_rejected : Sys Unit where
  step s c :=
    match c with
    | .sys_ioctl _ .UI_SET_ABSBIT _ => (.error ⟨22, by decide⟩, s)
    | _ => ideal.step s c

/-- An environment that rejects the commit directive with `EBUSY` (16) and
is `ideal` otherwise. -/
def commit_rejected : Sys Unit where
  step s c :=
    match c with
    | .sys_ioctl _ .UI_DEV_CREATE _ => (.error ⟨16, by decide⟩, s)
    | _ => ideal.step s c

/-- An environment without the primary device node: the `open` of
`/dev/uinput` fails with `ENOENT` (2); it is `ideal` otherwise. -/
def primary_missing : Sys Unit where
  step s c :=
    match c with
    | .sys_open "/dev/uinput" _ => (.error ⟨2, by decide⟩, s)
    | _ => ideal.step s c

/-- An environment in which only the last candidate node exists: the `open`
of `/dev/misc/uinput` returns descriptor 3, every other `open` fails with
`ENOENT` (2); it is `ideal` otherwise. -/
def only_misc : Sys Unit where
  step s c :=
    match c with
    | .sys_open "/dev/misc/uinput" _ => (.ok 3, s)
    | .sys_open _ _ => (.error ⟨2, by decide⟩, s)
    | _ => ideal.step s c

/-! ## Environments that differ in the key declarations only -/

/-- The environment `sys` with the replies to the per-key declarations
replaced by those of `f`; its state moves as that of `sys`, so every other
call is answered as `sys` answers it. -/
def override_keys {σ : Type} (sys : Sys σ) (f : σ → Call → Reply) : Sys σ where
  step s c := if c.is_key_decl then (f s c, (sys.step s c).2) else sys.step s c

/-! ## The channel table -/

/-- Whether the channel table lets a call through: a call on a descriptor
needs it to be open. -/
def table_allows (tbl : List Int) : Call → Bool
  | .sys_ioctl fd _ _ => decide (fd ∈ tbl)
  | .sys_write fd _ _ => decide (fd ∈ tbl)
  | .sys_close fd => decide (fd ∈ tbl)
  | _ => true

/-- The channel table after a call: a successful `open` adds its descriptor,
a `close` releases the descriptor whatever it returns. -/
def table_after (tbl : List Int) (c : Call) (r : Reply) : List Int :=
  match c, r with
  | .sys_open _ _, .ok n => (n : Int) :: tbl
  | .sys_close fd, _ => tbl.filter (fun x => x ≠ fd)
  | _, _ => tbl

/-- The error a call on a descriptor that is not open gets. -/
def bad_descriptor : Errno := ⟨EBADF, by decide⟩

/-- An environment with a channel table on top of `base`: a call on a
descriptor that is not open fails with `EBADF`; every other call is answered
by `base`. -/
def with_table {σ : Type} (base : Sys σ) : Sys (σ × List Int) where
  step s c :=
    match s with
    | (k, tbl) =>
      if table_allows tbl c then
        match base.step k c with
        | (r, k') => (r, (k', table_after tbl c r))
      else (.error bad_descriptor, (k, tbl))

/-- The operations of the interface. -/
inductive Op where
  | create
  | send (fd type code value : Int)
  | destroy (fd : Int)
deriving DecidableEq

/-- What the caller observes of an operation. -/
inductive Obs where
  | created (r : Int)
  | sent (fd : Int) (ok : Bool)
  | destroyed (fd : Int)
deriving DecidableEq

/-- Run one operation. -/
def run_op {σ : Type} (sys : Sys σ) : Op → M σ Obs
  | .create => do
    let r ← nativeInit sys
    pure (.created r)
  | .send fd type code value => do
    let b ← nativeSendEvent sys fd type code value
    pure (.sent fd b)
  | .destroy fd => do
    nativeClose sys fd
    pure (.destroyed fd)

/-- Run a sequence of operations, one after the other. -/
def run_ops {σ : Type} (sys : Sys σ) : List Op → M σ (List Obs)
  | [] => pure []
  | op :: ops => do
    let o ← run_op sys op
    let os ← run_ops sys ops
    pure (o :: os)

/-- The handles that are live after a sequence of observations, starting
from `live`: a successful create adds the handle it returned, a destroy
removes the handle it was given. -/
def live_after : List Int → List Obs → List Int
  | live, [] => live
  | live, .created r :: os => live_after (if 0 ≤ r then r :: live else live) os
  | live, .sent _ _ :: os => live_after live os
  | live, .destroyed fd :: os => live_after (live.filter (fun x => x ≠ fd)) os

/-! ## The shapes a run of `nativeInit` can take -/

/-- An `open` of a candidate path, as the source issues it. -/
def open_of (path : String) (r : Reply) : Entry :=
  ⟨.sys_open path (O_WRONLY ||| O_NONBLOCK), r⟩
/-- The declaration of an event class, with its reply. -/
def ev_bit (fd : Int) (code : Nat) (r : Reply) : Entry :=
  ⟨.sys_ioctl fd .UI_SET_EVBIT (some (code : Int)), r⟩
/-- The declaration of a key code, with its reply. -/
def key_bit (fd : Int) (code : Nat) (r : Reply) : Entry :=
  ⟨.sys_ioctl fd .UI_SET_KEYBIT (some (code : Int)), r⟩
/-- The declaration of an axis code, with its reply. -/
def abs_bit (fd : Int) (code : Nat) (r : Reply) : Entry :=
  ⟨.sys_ioctl fd .UI_SET_ABSBIT (some (code : Int)), r⟩
/-- The write of the descriptor record, with its reply. -/
def descriptor_write (fd : Int) (r : Reply) : Entry :=
  ⟨.sys_write fd (.user_dev xbox360_descriptor) sizeof_uinput_user_dev, r⟩
/-- The commit directive, with its reply. -/
def commit_of (fd : Int) (r : Reply) : Entry := ⟨.sys_ioctl fd .UI_DEV_CREATE none, r⟩
/-- The `close` of the channel, with its reply. -/
def close_of (fd : Int) (r : Reply) : Entry := ⟨.sys_close fd, r⟩

/-- The three event-class declarations, all successful, then the eleven key
and the eight axis declarations with whatever replies they got. -/
def declared (fd : Int) (n1 n2 n3 : Nat) (k1 k2 k3 k4 k5 k6 k7 k8 k9 k10 k11 : Reply)
    (a1 a2 a3 a4 a5 a6 a7 a8 : Reply) : List Entry :=
  [ev_bit fd EV_SYN (.ok n1), ev_bit fd EV_KEY (.ok n2), ev_bit fd EV_ABS (.ok n3),
   key_bit fd BTN_A k1, key_bit fd BTN_B k2, key_bit fd BTN_X k3, key_bit fd BTN_Y k4,
   key_bit fd BTN_TL k5, key_bit fd BTN_TR k6, key_bit fd BTN_SELECT k7,
   key_bit fd BTN_START k8, key_bit fd BTN_MODE k9, key_bit fd BTN_THUMBL k10,
   key_bit fd BTN_THUMBR k11,
   abs_bit fd ABS_X a1, abs_bit fd ABS_Y a2, abs_bit fd ABS_RX a3, abs_bit fd ABS_RY a4,
   abs_bit fd ABS_Z a5, abs_bit fd ABS_RZ a6, abs_bit fd ABS_HAT0X a7, abs_bit fd ABS_HAT0Y a8]

/-- The system calls and the result of `configure_device` on channel `fd`:
one case for each place the run can end. -/
inductive ConfShape (fd : Int) : List Entry → Int → Prop
  | ev_syn_failed (e : Errno) (rc : Reply) (r : Int) (hr : r < 0) :
      ConfShape fd [ev_bit fd EV_SYN (.error e), close_of fd rc] r
  | ev_key_failed (n1 : Nat) (e : Errno) (rc : Reply) (r : Int) (hr : r < 0) :
      ConfShape fd [ev_bit fd EV_SYN (.ok n1), ev_bit fd EV_KEY (.error e), close_of fd rc] r
  | ev_abs_failed (n1 n2 : Nat) (e : Errno) (rc : Reply) (r : Int) (hr : r < 0) :
      ConfShape fd [ev_bit fd EV_SYN (.ok n1), ev_bit fd EV_KEY (.ok n2),
        ev_bit fd EV_ABS (.error e), close_of fd rc] r
  | write_failed (n1 n2 n3 : Nat) (k1 k2 k3 k4 k5 k6 k7 k8 k9 k10 k11 : Reply)
      (a1 a2 a3 a4 a5 a6 a7 a8 : Reply) (e : Errno) (rc : Reply) (r : Int) (hr : r < 0) :
      ConfShape fd
        (declared fd n1 n2 n3 k1 k2 k3 k4 k5 k6 k7 k8 k9 k10 k11 a1 a2 a3 a4 a5 a6 a7 a8 ++
          [descriptor_write fd (.error e), close_of fd rc]) r
  | create_failed (n1 n2 n3 : Nat) (k1 k2 k3 k4 k5 k6 k7 k8 k9 k10 k11 : Reply)
      (a1 a2 a3 a4 a5 a6 a7 a8 : Reply) (nw : Nat) (e : Errno) (rc : Reply) (r : Int)
      (hr : r < 0) :
      ConfShape fd
        (declared fd n1 n2 n3 k1 k2 k3 k4 k5 k6 k7 k8 k9 k10 k11 a1 a2 a3 a4 a5 a6 a7 a8 ++
          [descriptor_write fd (.ok nw), commit_of fd (.error e), close_of fd rc]) r
  | created (n1 n2 n3 : Nat) (k1 k2 k3 k4 k5 k6 k7 k8 k9 k10 k11 : Reply)
      (a1 a2 a3 a4 a5 a6 a7 a8 : Reply) (nw nc : Nat) :
      ConfShape fd
        (declared fd n1 n2 n3 k1 k2 k3 k4 k5 k6 k7 k8 k9 k10 k11 a1 a2 a3 a4 a5 a6 a7 a8 ++
          [descriptor_write fd (.ok nw), commit_of fd (.ok nc)]) fd

/-- The system calls and the result of `nativeInit`: no path opens, or the
first, second or third path opens and `configure_device` runs on it. -/
inductive InitShape : List Entry → Int → Prop
  | unavailable (e1 e2 e3 : Errno) :
      InitShape [open_of "/dev/uinput" (.error e1), open_of "/dev/input/uinput" (.error e2),
        open_of "/dev/misc/uinput" (.error e3)] (-ENODEV)
  | first (n : Nat) (rest : List Entry) (r : Int) (h : ConfShape n rest r) :
      InitShape (open_of "/dev/uinput" (.ok n) :: rest) r
  | second (e1 : Errno) (n : Nat) (rest : List Entry) (r : Int) (h : ConfShape n rest r) :
      InitShape (open_of "/dev/uinput" (.error e1) :: open_of "/dev/input/uinput" (.ok n) ::
        rest) r
  | third (e1 e2 : Errno) (n : Nat) (rest : List Entry) (r : Int) (h : ConfShape n rest r) :
      InitShape (open_of "/dev/uinput" (.error e1) :: open_of "/dev/input/uinput" (.error e2) ::
        open_of "/dev/misc/uinput" (.ok n) :: rest) r

/-! ## Reasoning devices -/

/-- The postcondition `Q` holds of the value and the world `m` ends with. -/
def wp {σ α : Type} (m : M σ α) (Q : α → World σ → Prop) (w : World σ) : Prop :=
  Q (m w).1 (m w).2

/-- The channel table a list of entries leads to, from the table `tbl`. -/
def table_of (tbl : List Int) (es : List Entry) : List Int :=
  es.foldl (fun t e => table_after t e.call e.reply) tbl

/-- Every call of the list that did not fail was let through by the channel
table as it stood when the call was issued, the table being `tbl` at first. -/
def Allowed : List Int → List Entry → Prop
  | _, [] => True
  | tbl, e :: es =>
    (e.reply.failed = false → table_allows tbl e.call = true) ∧
      Allowed (table_after tbl e.call e.reply) es

/-- Under a channel table, `m` extends the trace, the table it ends with is
the one its entries lead to, and each of its calls that did not fail was let
through by the table. -/
def Tracked {σ α : Type} (m : M (σ × List Int) α) : Prop :=
  ∀ w : World (σ × List Int), ∃ new, (m w).2.trace = w.trace ++ new ∧
    (m w).2.kernel.2 = table_of w.kernel.2 new ∧ Allowed w.kernel.2 new

/-- The value `m` returns and the state of the environment it ends in do not
depend on `errno` or on the trace. -/
def KernelOnly {σ α : Type} (m : M σ α) : Prop :=
  ∀ (k : σ) (e e' : Int) (t t' : List Entry),
    (m ⟨k, e, t⟩).1 = (m ⟨k, e', t'⟩).1 ∧ (m ⟨k, e, t⟩).2.kernel = (m ⟨k, e', t'⟩).2.kernel

/-- The value `m` returns, and the state of the environment and the `errno`
it ends with, do not depend on the trace. -/
def TraceFree {σ α : Type} (m : M σ α) : Prop :=
  ∀ (k : σ) (e : Int) (t t' : List Entry),
    (m ⟨k, e, t⟩).1 = (m ⟨k, e, t'⟩).1 ∧ (m ⟨k, e, t⟩).2.kernel = (m ⟨k, e, t'⟩).2.kernel ∧
      (m ⟨k, e, t⟩).2.errno = (m ⟨k, e, t'⟩).2.errno

/-! ## Basic facts about the monad -/

theorem bind_apply {σ α β : Type} (m : M σ α) (f : α → M σ β) (w : World σ) :
    (m >>= f) w = f (m w).1 (m w).2 := rfl

theorem pure_apply {σ α : Type} (a : α) (w : World σ) :
    (pure a : M σ α) w = (a, w) := rfl

theorem ite_apply {σ α : Type} (c : Prop) [Decidable c] (a b : M σ α) (w : World σ) :
    (if c then a else b) w = if c then a w else b w := by
  split <;> rfl

theorem call_apply {σ : Type} (sys : Sys σ) (c : Call) (w : World σ) :
    call sys c w = ((sys.step w.kernel c).1.ret,
      { kernel := (sys.step w.kernel c).2,
        errno := (sys.step w.kernel c).1.errnoAfter w.errno,
        trace := w.trace ++ [⟨c, (sys.step w.kernel c).1⟩] }) := rfl

theorem Reply.failed_iff (r : Reply) : r.failed = true ↔ r.ret < 0 := by
  cases r <;> simp [Reply.failed, Reply.ret]

theorem Reply.errnoAfter_pos (r : Reply) (old : Int) (h : 0 < old) : 0 < r.errnoAfter old := by
  cases r with
  | ok n => simpa [Reply.errnoAfter] using h
  | error e => simpa [Reply.errnoAfter] using e.property

theorem fail_result_neg (e : Errno) (rl rc : Reply) :
    -(rc.errnoAfter (rl.errnoAfter e.val)) < 0 := by
  have := Reply.errnoAfter_pos rc _ (Reply.errnoAfter_pos rl _ e.property)
  omega

theorem issued_eq {σ α : Type} (m : M σ α) (w : World σ) (new : List Entry)
    (h : (m w).2.trace = w.trace ++ new) : issued m w = new := by
  simp [issued, h]

theorem all_splits_acc (R : List Entry → Entry → List Entry → Bool) (tr racc : List Entry) :
    all_splits R racc tr = true ↔
      ∀ pre e post, tr = pre ++ e :: post → R (pre.reverse ++ racc) e post = true := by
  induction tr generalizing racc with
  | nil =>
    simp only [all_splits, true_iff]
    intro pre e post h
    cases pre <;> simp at h
  | cons a tl ih =>
    simp only [all_splits, Bool.and_eq_true, ih]
    constructor
    · rintro ⟨h0, h1⟩ pre e post heq
      cases pre with
      | nil =>
        simp only [List.nil_append, List.cons.injEq] at heq
        obtain ⟨rfl, rfl⟩ := heq
        simpa using h0
      | cons b pre' =>
        simp only [List.cons_append, List.cons.injEq] at heq
        obtain ⟨rfl, rfl⟩ := heq
        simpa using h1 pre' e post rfl
    · intro h
      refine ⟨by simpa using h [] a tl rfl, ?_⟩
      intro pre e post heq
      simpa using h (a :: pre) e post (by simp [heq])

/-- Walking along a trace with `all_splits` checks every split of it. -/
theorem all_splits_iff (R : List Entry → Entry → List Entry → Bool) (tr : List Entry) :
    all_splits R [] tr = true ↔
      ∀ pre e post, tr = pre ++ e :: post → R pre.reverse e post = true := by
  rw [all_splits_acc]
  simp

/-! ## Rules for running a computation step by step -/

theorem wp_pure {σ α : Type} (a : α) (Q : α → World σ → Prop) (w : World σ)
    (h : Q a w) : wp (pure a) Q w := h

theorem wp_bind {σ α β : Type} (m : M σ α) (f : α → M σ β) (Q : β → World σ → Prop)
    (w : World σ) (h : wp m (fun a w' => wp (f a) Q w') w) : wp (m >>= f) Q w := h

theorem wp_mono {σ α : Type} (m : M σ α) (Q Q' : α → World σ → Prop) (w : World σ)
    (h : wp m Q w) (hq : ∀ a w', Q a w' → Q' a w') : wp m Q' w := hq _ _ h

theorem wp_call {σ : Type} (sys : Sys σ) (c : Call) (Q : Int → World σ → Prop)
    (k0 : σ) (e0 : Int) (t0 : List Entry)
    (h : ∀ (r : Reply) (k : σ), Q r.ret ⟨k, r.errnoAfter e0, t0 ++ [⟨c, r⟩]⟩) :
    wp (call sys c) Q ⟨k0, e0, t0⟩ := h _ _

theorem wp_log {σ : Type} (sys : Sys σ) (l : LogLevel) (s : String) (Q : Unit → World σ → Prop)
    (k0 : σ) (e0 : Int) (t0 : List Entry)
    (h : ∀ (r : Reply) (k : σ), Q () ⟨k, r.errnoAfter e0, t0 ++ [⟨.android_log l s, r⟩]⟩) :
    wp (log sys l s) Q ⟨k0, e0, t0⟩ := h _ _

theorem wp_get_errno {σ : Type} (Q : Int → World σ → Prop) (k0 : σ) (e0 : Int)
    (t0 : List Entry) (h : Q e0 ⟨k0, e0, t0⟩) : wp get_errno Q ⟨k0, e0, t0⟩ := h

/-- A call whose result is tested with `< 0`: one case for each outcome. -/
theorem wp_call_branch {σ α : Type} (sys : Sys σ) (c : Call) (a b : M σ α)
    (Q : α → World σ → Prop) (k0 : σ) (e0 : Int) (t0 : List Entry)
    (herr : ∀ (e : Errno) (k : σ), wp a Q ⟨k, e.val, t0 ++ [⟨c, .error e⟩]⟩)
    (hok : ∀ (n : Nat) (k : σ), wp b Q ⟨k, e0, t0 ++ [⟨c, .ok n⟩]⟩) :
    wp (call sys c >>= fun r => if r < 0 then a else b) Q ⟨k0, e0, t0⟩ := by
  have key : ∀ p : Reply × σ, sys.step k0 c = p →
      wp (call sys c >>= fun r => if r < 0 then a else b) Q ⟨k0, e0, t0⟩ := by
    intro p hp
    obtain ⟨r, k⟩ := p
    unfold wp
    simp only [bind_apply, call_apply, hp]
    cases r with
    | ok n =>
      have : ¬ ((n : Int) < 0) := by omega
      simpa [Reply.ret, Reply.errnoAfter, this] using hok n k
    | error e => simpa [Reply.ret, Reply.errnoAfter] using herr e k
  exact key _ rfl

/-- A call whose result is tested with `>= 0` and used in both branches. -/
theorem wp_call_branch_ge {σ α : Type} (sys : Sys σ) (c : Call) (a b : Int → M σ α)
    (Q : α → World σ → Prop) (k0 : σ) (e0 : Int) (t0 : List Entry)
    (hok : ∀ (n : Nat) (k : σ), wp (a n) Q ⟨k, e0, t0 ++ [⟨c, .ok n⟩]⟩)
    (herr : ∀ (e : Errno) (k : σ), wp (b (-1)) Q ⟨k, e.val, t0 ++ [⟨c, .error e⟩]⟩) :
    wp (call sys c >>= fun r => if r ≥ 0 then a r else b r) Q ⟨k0, e0, t0⟩ := by
  have key : ∀ p : Reply × σ, sys.step k0 c = p →
      wp (call sys c >>= fun r => if r ≥ 0 then a r else b r) Q ⟨k0, e0, t0⟩ := by
    intro p hp
    obtain ⟨r, k⟩ := p
    unfold wp
    simp only [bind_apply, call_apply, hp]
    cases r with
    | ok n =>
      have : ((n : Int) ≥ 0) := by omega
      simpa [Reply.ret, Reply.errnoAfter, this] using hok n k
    | error e => simpa [Reply.ret, Reply.errnoAfter] using herr e k
  exact key _ rfl

/-- The left operand of `||` is a call tested with `< 0`. -/
theorem wp_c_or_is_neg {σ : Type} (sys : Sys σ) (c : Call) (b : M σ Bool)
    (Q : Bool → World σ → Prop) (k0 : σ) (e0 : Int) (t0 : List Entry)
    (herr : ∀ (e : Errno) (k : σ), Q true ⟨k, e.val, t0 ++ [⟨c, .error e⟩]⟩)
    (hok : ∀ (n : Nat) (k : σ), wp b Q ⟨k, e0, t0 ++ [⟨c, .ok n⟩]⟩) :
    wp (c_or (is_neg (call sys c)) b) Q ⟨k0, e0, t0⟩ := by
  have key : ∀ p : Reply × σ, sys.step k0 c = p →
      wp (c_or (is_neg (call sys c)) b) Q ⟨k0, e0, t0⟩ := by
    intro p hp
    obtain ⟨r, k⟩ := p
    unfold wp c_or is_neg
    simp only [bind_apply, pure_apply, call_apply, hp]
    cases r with
    | ok n =>
      have : ¬ ((n : Int) < 0) := by omega
      simpa [Reply.ret, Reply.errnoAfter, this] using hok n k
    | error e => simpa [Reply.ret, Reply.errnoAfter, pure_apply] using herr e k
  exact key _ rfl

/-- A call tested with `< 0`. -/
theorem wp_is_neg_call {σ : Type} (sys : Sys σ) (c : Call) (Q : Bool → World σ → Prop)
    (k0 : σ) (e0 : Int) (t0 : List Entry)
    (herr : ∀ (e : Errno) (k : σ), Q true ⟨k, e.val, t0 ++ [⟨c, .error e⟩]⟩)
    (hok : ∀ (n : Nat) (k : σ), Q false ⟨k, e0, t0 ++ [⟨c, .ok n⟩]⟩) :
    wp (is_neg (call sys c)) Q ⟨k0, e0, t0⟩ := by
  have key : ∀ p : Reply × σ, sys.step k0 c = p → wp (is_neg (call sys c)) Q ⟨k0, e0, t0⟩ := by
    intro p hp
    obtain ⟨r, k⟩ := p
    unfold wp is_neg
    simp only [bind_apply, pure_apply, call_apply, hp]
    cases r with
    | ok n =>
      have : ¬ ((n : Int) < 0) := by omega
      simpa [Reply.ret, Reply.errnoAfter, this] using hok n k
    | error e => simpa [Reply.ret, Reply.errnoAfter] using herr e k
  exact key _ rfl

theorem wp_def {σ α : Type} (m : M σ α) (Q : α → World σ → Prop) (w : World σ) :
    wp m Q w ↔ Q (m w).1 (m w).2 := Iff.rfl

attribute [irreducible] wp

/-! ## The shape of a run of `nativeInit` -/

set_option maxHeartbeats 1000000 in
theorem configure_device_shape {σ : Type} (sys : Sys σ) (fd : Int) (w : World σ) :
    wp (configure_device sys fd)
      (fun r w' => ∃ new, w'.trace = w.trace ++ new ∧ ConfShape fd (syscalls new) r) w := by
  obtain ⟨k0, e0, t0⟩ := w
  unfold configure_device set_key_bits set_abs_bits write_and_create ioctl ioctl0
  repeat' (first
    | apply wp_call_branch <;> intro _ _
    | apply wp_c_or_is_neg <;> intro _ _
    | apply wp_is_neg_call <;> intro _ _
    | (apply wp_call; intro _ _)
    | (apply wp_log; intro _ _)
    | apply wp_get_errno
    | apply wp_pure
    | apply wp_bind)
  all_goals (refine ⟨_, (by dsimp only; simp only [List.append_assoc]; rfl), ?_⟩)
  all_goals simp only [syscalls, List.filter, Call.is_syscall, List.cons_append, List.nil_append]
  · exact ConfShape.ev_syn_failed _ _ _ (fail_result_neg _ _ _)
  · exact ConfShape.ev_key_failed _ _ _ _ (fail_result_neg _ _ _)
  · exact ConfShape.ev_abs_failed _ _ _ _ _ (fail_result_neg _ _ _)
  · exact ConfShape.write_failed _ _ _ _ _ _ _ _ _ _ _ _ _ _ _ _ _ _ _ _ _ _ _ _ _
      (fail_result_neg _ _ _)
  · exact ConfShape.create_failed _ _ _ _ _ _ _ _ _ _ _ _ _ _ _ _ _ _ _ _ _ _ _ _ _ _
      (fail_result_neg _ _ _)
  · exact ConfShape.created _ _ _ _ _ _ _ _ _ _ _ _ _ _ _ _ _ _ _ _ _ _ _ _

theorem syscalls_append (a b : List Entry) : syscalls (a ++ b) = syscalls a ++ syscalls b := by
  simp [syscalls]

/-- What `nativeInit` does once a path has opened with descriptor `n`. -/
theorem wp_after_open {σ : Type} (sys : Sys σ) (n : Nat) (a : M σ Int) (k : σ) (e : Int)
    (t0 pre : List Entry) (P : List Entry → Int → Prop)
    (hP : ∀ rest r, ConfShape n rest r → P (syscalls pre ++ rest) r) :
    wp (if (n : Int) < 0 then a else configure_device sys n)
      (fun r w' => ∃ new, w'.trace = t0 ++ new ∧ P (syscalls new) r) ⟨k, e, t0 ++ pre⟩ := by
  rw [if_neg (by omega)]
  refine wp_mono _ _ _ _ (configure_device_shape sys n _) ?_
  rintro r w' ⟨new, h1, h2⟩
  refine ⟨pre ++ new, by simp [h1], ?_⟩
  rw [syscalls_append]
  exact hP _ _ h2

theorem nativeInit_wp {σ : Type} (sys : Sys σ) (w : World σ) :
    wp (nativeInit sys)
      (fun r w' => ∃ new, w'.trace = w.trace ++ new ∧ InitShape (syscalls new) r) w := by
  obtain ⟨k0, e0, t0⟩ := w
  unfold nativeInit
  simp only [uinput_paths, open_loop]
  apply wp_bind; apply wp_log; intro r0 k1
  apply wp_bind
  apply wp_call_branch_ge
  · intro n k
    apply wp_bind; apply wp_log; intro r1 k2
    apply wp_pure
    simp only [List.append_assoc]
    refine wp_after_open sys n _ _ _ t0 _ _ ?_
    intro rest r h
    exact InitShape.first n rest r h
  intro e1 k
  apply wp_bind; apply wp_log; intro r1 k2
  apply wp_call_branch_ge
  · intro n k
    apply wp_bind; apply wp_log; intro r2 k3
    apply wp_pure
    simp only [List.append_assoc]
    refine wp_after_open sys n _ _ _ t0 _ _ ?_
    intro rest r h
    exact InitShape.second e1 n rest r h
  intro e2 k
  apply wp_bind; apply wp_log; intro r2 k3
  apply wp_call_branch_ge
  · intro n k
    apply wp_bind; apply wp_log; intro r3 k4
    apply wp_pure
    simp only [List.append_assoc]
    refine wp_after_open sys n _ _ _ t0 _ _ ?_
    intro rest r h
    exact InitShape.third e1 e2 n rest r h
  intro e3 k
  apply wp_bind; apply wp_log; intro r3 k4
  apply wp_pure
  rw [if_pos (by omega)]
  apply wp_bind; apply wp_log; intro r4 k5
  apply wp_pure
  refine ⟨_, (by dsimp only; simp only [List.append_assoc]; rfl), ?_⟩
  exact InitShape.unavailable e1 e2 e3

/-- Every run of `nativeInit` extends the trace by entries whose system calls,
with the result, have one of the shapes of `InitShape`. -/
theorem nativeInit_shape {σ : Type} (sys : Sys σ) (w : World σ) :
    InitShape (syscalls (issued (nativeInit sys) w)) (result (nativeInit sys) w) := by
  obtain ⟨new, h1, h2⟩ := (wp_def _ _ _).1 (nativeInit_wp sys w)
  rw [issued_eq _ _ _ h1]
  exact h2

/-! ## Creation: failure releases the channel, success returns it -/

theorem shape_after_failure (tr : List Entry) (r : Int) (h : InitShape tr r) :
    all_splits (fun _ e post =>
      !(e.call.is_fatal_step && e.reply.failed) || post.all (fun x => x.call.is_close)) [] tr
      = true := by
  cases h with
  | unavailable e1 e2 e3 => rfl
  | first n rest r hc => cases hc <;> rfl
  | second e1 n rest r hc => cases hc <;> rfl
  | third e1 e2 n rest r hc => cases hc <;> rfl

theorem shape_close_last (tr : List Entry) (r : Int) (h : InitShape tr r) :
    all_splits (fun _ e post => !e.call.is_close || post.isEmpty) [] tr = true := by
  cases h with
  | unavailable e1 e2 e3 => rfl
  | first n rest r hc => cases hc <;> rfl
  | second e1 n rest r hc => cases hc <;> rfl
  | third e1 e2 n rest r hc => cases hc <;> rfl

theorem conf_shape_result (fd : Nat) (tr : List Entry) (r : Int) (h : ConfShape fd tr r) :
    opened tr = [] ∧
    (fatal_failure ((open_of "/dev/uinput" (.ok fd)) :: tr) = true →
      r < 0 ∧ closed tr = [(fd : Int)]) ∧
    (fatal_failure ((open_of "/dev/uinput" (.ok fd)) :: tr) = false →
      closed tr = [] ∧ r = (fd : Int)) ∧
    tr.any (fun e => e.call.is_fatal_step && e.reply.failed) =
      fatal_failure ((open_of "/dev/uinput" (.ok fd)) :: tr) := by
  cases h <;> refine ⟨rfl, ?_, ?_, rfl⟩ <;> intro hf <;>
    first
    | exact ⟨‹r < 0›, rfl⟩
    | exact ⟨rfl, rfl⟩
    | exact absurd (show (true : Bool) = false from Eq.trans rfl hf) (by decide)
    | exact absurd (show (false : Bool) = true from Eq.trans rfl hf) (by decide)

theorem opened_failed_open (p : String) (e : Errno) (l : List Entry) :
    opened (open_of p (.error e) :: l) = opened l := rfl

theorem closed_open (p : String) (r : Reply) (l : List Entry) :
    closed (open_of p r :: l) = closed l := rfl

theorem opened_ok_open (p : String) (n : Nat) (l : List Entry) :
    opened (open_of p (.ok n) :: l) = (n : Int) :: opened l := rfl

theorem fatal_failure_failed_open (p : String) (e : Errno) (l : List Entry) :
    fatal_failure (open_of p (.error e) :: l) = fatal_failure l := rfl

theorem fatal_failure_path (p : String) (n : Nat) (l : List Entry) :
    fatal_failure (open_of p (.ok n) :: l) = fatal_failure (open_of "/dev/uinput" (.ok n) :: l) :=
  rfl

/-- The outcome of `nativeInit` in terms of its system calls, for a run in
which a path opened with descriptor `n`. -/
theorem init_shape_result (tr : List Entry) (r : Int) (h : InitShape tr r) :
    (opened tr).length ≤ 1 ∧
    (fatal_failure tr = true →
      r < 0 ∧ closed tr = opened tr ∧ (opened tr = [] → r = -ENODEV)) ∧
    (fatal_failure tr = false →
      closed tr = [] ∧ ∃ n : Nat, opened tr = [(n : Int)] ∧ r = (n : Int)) := by
  cases h with
  | unavailable e1 e2 e3 =>
    refine ⟨Nat.zero_le 1, fun _ => ⟨by decide, rfl, fun _ => rfl⟩, fun hf => ?_⟩
    exact absurd (show (true : Bool) = false from Eq.trans rfl hf) (by decide)
  | first n rest r hc =>
    obtain ⟨h0, h1, h2, _⟩ := conf_shape_result n rest r hc
    simp only [opened_ok_open, closed_open, h0]
    refine ⟨by simp, fun hf => ⟨(h1 hf).1, (h1 hf).2, by simp⟩, fun hf => ⟨(h2 hf).1, n, rfl, (h2 hf).2⟩⟩
  | second e1 n rest r hc =>
    obtain ⟨h0, h1, h2, _⟩ := conf_shape_result n rest r hc
    simp only [opened_failed_open, fatal_failure_failed_open, opened_ok_open, closed_open, h0]
    rw [fatal_failure_path]
    refine ⟨by simp, fun hf => ⟨(h1 hf).1, (h1 hf).2, by simp⟩, fun hf => ⟨(h2 hf).1, n, rfl, (h2 hf).2⟩⟩
  | third e1 e2 n rest r hc =>
    obtain ⟨h0, h1, h2, _⟩ := conf_shape_result n rest r hc
    simp only [opened_failed_open, fatal_failure_failed_open, opened_ok_open, closed_open, h0]
    rw [fatal_failure_path]
    refine ⟨by simp, fun hf => ⟨(h1 hf).1, (h1 hf).2, by simp⟩, fun hf => ⟨(h2 hf).1, n, rfl, (h2 hf).2⟩⟩

/-- When no path opens, the system calls of the run are the `open`s of the
three candidate paths and nothing else. -/
theorem shape_nothing_opened (tr : List Entry) (r : Int) (h : InitShape tr r)
    (h0 : opened tr = []) :
    calls tr = uinput_paths.map (fun p => Call.sys_open p (O_WRONLY ||| O_NONBLOCK)) := by
  cases h with
  | unavailable e1 e2 e3 => rfl
  | first n rest r hc => exact absurd (show _ :: _ = [] from h0) (List.cons_ne_nil _ _)
  | second e1 n rest r hc => exact absurd (show _ :: _ = [] from h0) (List.cons_ne_nil _ _)
  | third e1 e2 n rest r hc => exact absurd (show _ :: _ = [] from h0) (List.cons_ne_nil _ _)

/-- C4. Creation leaks no channel and its result tells success from failure.
At most one channel is opened.  When creation meets a fatal failure (no path
opens, or an event-class declaration, the descriptor write or the commit
directive returns an error) the result is negative, the descriptors closed
are exactly the descriptors opened (so the opened channel is closed exactly
once, and nothing is closed when nothing was opened, in which case the result
is `-ENODEV`), after the failing step nothing but the `close` is issued,
that `close` is the last system call, and when no path opened the system
calls of the run are the three `open`s and nothing else (no declaration,
write, commit or close follows the last failed `open`).  When there is no
fatal failure nothing is closed and the result is the descriptor of the one
channel opened. -/
theorem nativeInit_no_leak {σ : Type} (sys : Sys σ) (w : World σ) :
    (opened (syscalls (issued (nativeInit sys) w))).length ≤ 1 ∧
    (fatal_failure (syscalls (issued (nativeInit sys) w)) = true →
      result (nativeInit sys) w < 0 ∧
      closed (syscalls (issued (nativeInit sys) w)) =
        opened (syscalls (issued (nativeInit sys) w)) ∧
      (opened (syscalls (issued (nativeInit sys) w)) = [] →
        result (nativeInit sys) w = -ENODEV) ∧
      (∀ pre e post, syscalls (issued (nativeInit sys) w) = pre ++ e :: post →
        e.call.is_fatal_step = true → e.reply.failed = true →
        ∀ x ∈ post, x.call.is_close = true) ∧
      (∀ pre e post, syscalls (issued (nativeInit sys) w) = pre ++ e :: post →
        e.call.is_close = true → post = []) ∧
      (opened (syscalls (issued (nativeInit sys) w)) = [] →
        calls (syscalls (issued (nativeInit sys) w)) =
          uinput_paths.map (fun p => Call.sys_open p (O_WRONLY ||| O_NONBLOCK)))) ∧
    (fatal_failure (syscalls (issued (nativeInit sys) w)) = false →
      closed (syscalls (issued (nativeInit sys) w)) = [] ∧
      ∃ n : Nat, opened (syscalls (issued (nativeInit sys) w)) = [(n : Int)] ∧
        result (nativeInit sys) w = (n : Int)) := by
  have h := nativeInit_shape sys w
  obtain ⟨h1, h2, h3⟩ := init_shape_result _ _ h
  have ha := (all_splits_iff _ _).1 (shape_after_failure _ _ h)
  have hb := (all_splits_iff _ _).1 (shape_close_last _ _ h)
  refine ⟨h1, fun hf => ⟨(h2 hf).1, (h2 hf).2.1, (h2 hf).2.2, ?_, ?_,
    shape_nothing_opened _ _ h⟩, h3⟩
  · intro pre e post hs hq hr x hx
    have := ha pre e post hs
    simp only [hq, hr, Bool.and_self, Bool.not_true, Bool.false_or, List.all_eq_true] at this
    exact this x hx
  · intro pre e post hs hq
    have := hb pre e post hs
    simpa [hq] using this

/-- Witness of C4: where every `open` fails nothing is opened or closed, the
three `open`s are the only system calls and the result is `-ENODEV`; where
the commit directive fails the channel 3 that
was opened is closed once and the result is negative; where everything
succeeds nothing is closed and the result is the descriptor 3. -/
theorem nativeInit_no_leak_witness :
    (fatal_failure (syscalls (issued (nativeInit no_device) world0)) = true ∧
      opened (syscalls (issued (nativeInit no_device) world0)) = [] ∧
      closed (syscalls (issued (nativeInit no_device) world0)) = [] ∧
      result (nativeInit no_device) world0 = -ENODEV ∧
      calls (syscalls (issued (nativeInit no_device) world0)) =
        [.sys_open "/dev/uinput" 2049, .sys_open "/dev/input/uinput" 2049,
          .sys_open "/dev/misc/uinput" 2049]) ∧
    (fatal_failure (syscalls (issued (nativeInit commit_rejected) world0)) = true ∧
      opened (syscalls (issued (nativeInit commit_rejected) world0)) = [3] ∧
      closed (syscalls (issued (nativeInit commit_rejected) world0)) = [3] ∧
      result (nativeInit commit_rejected) world0 < 0) ∧
    (fatal_failure (syscalls (issued (nativeInit ideal) world0)) = false ∧
      closed (syscalls (issued (nativeInit ideal) world0)) = [] ∧
      ∃ n : Nat, opened (syscalls (issued (nativeInit ideal) world0)) = [(n : Int)] ∧
        result (nativeInit ideal) world0 = (n : Int)) := by
  have h1 := (nativeInit_no_leak no_device world0).2.1 (by decide)
  have h2 := (nativeInit_no_leak commit_rejected world0).2.1 (by decide)
  have h3 := (nativeInit_no_leak ideal world0).2.2 (by decide)
  refine ⟨⟨by decide, by decide, ?_, h1.2.2.1 (by decide), by decide⟩,
    ⟨by decide, by decide, ?_, h2.1⟩, ⟨by decide, h3.1, h3.2⟩⟩
  · rw [h1.2.1]
    decide
  · rw [h2.2.1]
    decide

/-! ## Creation: the order of the protocol -/

theorem shape_opens_first (tr : List Entry) (r : Int) (h : InitShape tr r) :
    all_splits (fun pre e _ =>
      !e.call.is_open || pre.all (fun x => x.call.is_open && x.reply.failed)) [] tr = true := by
  cases h with
  | unavailable e1 e2 e3 => rfl
  | first n rest r hc => cases hc <;> rfl
  | second e1 n rest r hc => cases hc <;> rfl
  | third e1 e2 n rest r hc => cases hc <;> rfl

theorem shape_write_order (tr : List Entry) (r : Int) (h : InitShape tr r) :
    all_splits (fun pre e post => !e.call.is_write ||
      (post.all (fun x => !x.call.is_declaration) &&
        event_classes.all (fun c =>
          pre.any (fun x => x.call.declares_event c && !x.reply.failed)))) [] tr = true := by
  cases h with
  | unavailable e1 e2 e3 => rfl
  | first n rest r hc => cases hc <;> rfl
  | second e1 n rest r hc => cases hc <;> rfl
  | third e1 e2 n rest r hc => cases hc <;> rfl

theorem shape_commit_order (tr : List Entry) (r : Int) (h : InitShape tr r) :
    all_splits (fun pre e post => !e.call.is_commit ||
      (post.all (fun x => !x.call.is_write && !x.call.is_declaration) &&
        pre.any (fun x => x.call.is_write && !x.reply.failed))) [] tr = true := by
  cases h with
  | unavailable e1 e2 e3 => rfl
  | first n rest r hc => cases hc <;> rfl
  | second e1 n rest r hc => cases hc <;> rfl
  | third e1 e2 n rest r hc => cases hc <;> rfl

theorem shape_open_calls (tr : List Entry) (r : Int) (h : InitShape tr r) :
    calls (tr.filter (fun e => e.call.is_open)) <+:
      uinput_paths.map (fun p => Call.sys_open p (O_WRONLY ||| O_NONBLOCK)) := by
  cases h with
  | unavailable e1 e2 e3 => exact List.prefix_iff_eq_take.2 rfl
  | first n rest r hc => cases hc <;> exact List.prefix_iff_eq_take.2 rfl
  | second e1 n rest r hc => cases hc <;> exact List.prefix_iff_eq_take.2 rfl
  | third e1 e2 n rest r hc => cases hc <;> exact List.prefix_iff_eq_take.2 rfl

/-- After a failed `open` that is not the third system call of the run, the
next system call is the `open` of the next candidate path. -/
theorem shape_fallback (tr : List Entry) (r : Int) (h : InitShape tr r) :
    all_splits (fun pre e post =>
      !(e.call.is_open && e.reply.failed && Nat.blt (pre.length + 1) uinput_paths.length) ||
        (match post with
          | x :: _ => x.call.is_open && (x.call.path == uinput_paths.get? (pre.length + 1))
          | [] => false)) [] tr = true := by
  cases h with
  | unavailable e1 e2 e3 => rfl
  | first n rest r hc => cases hc <;> rfl
  | second e1 n rest r hc => cases hc <;> rfl
  | third e1 e2 n rest r hc => cases hc <;> rfl

/-- When every `open` of the run failed, all three candidate paths were
tried, in order. -/
theorem shape_all_tried (tr : List Entry) (r : Int) (h : InitShape tr r)
    (hf : ∀ e ∈ tr, e.call.is_open = true → e.reply.failed = true) :
    calls (tr.filter (fun e => e.call.is_open)) =
      uinput_paths.map (fun p => Call.sys_open p (O_WRONLY ||| O_NONBLOCK)) := by
  cases h with
  | unavailable e1 e2 e3 => rfl
  | first n rest r hc =>
    exact absurd (show (false : Bool) = true from hf _ (List.mem_cons_self _ _) rfl) (by decide)
  | second e1 n rest r hc =>
    exact absurd (show (false : Bool) = true from
      hf _ (List.mem_cons_of_mem _ (List.mem_cons_self _ _)) rfl) (by decide)
  | third e1 e2 n rest r hc =>
    exact absurd (show (false : Bool) = true from
      hf _ (List.mem_cons_of_mem _ (List.mem_cons_of_mem _ (List.mem_cons_self _ _))) rfl)
      (by decide)

theorem conf_shape_decls (fd : Int) (tr : List Entry) (r : Int) (h : ConfShape fd tr r) :
    calls (tr.filter (fun e => e.call.is_declaration)) <+: declarations fd := by
  cases h <;> exact List.prefix_iff_eq_take.2 rfl

theorem conf_shape_fd (fd : Int) (tr : List Entry) (r : Int) (h : ConfShape fd tr r) :
    ∀ e ∈ tr, ∀ fd', e.call.fd = some fd' → fd' = fd := by
  cases h <;>
    simp [declared, ev_bit, key_bit, abs_bit, descriptor_write, commit_of, close_of, Call.fd,
      eq_comm]

theorem init_shape_fd (tr : List Entry) (r : Int) (h : InitShape tr r) :
    (∀ e ∈ tr, ∀ fd, e.call.fd = some fd → opened tr = [fd]) ∧
    (∀ fd, opened tr = [fd] →
      calls (tr.filter (fun e => e.call.is_declaration)) <+: declarations fd) := by
  cases h with
  | unavailable e1 e2 e3 =>
    refine ⟨?_, fun fd hfd => absurd hfd (by simp [opened, open_of])⟩
    simp [open_of, Call.fd]
  | first n rest r hc =>
    have h0 := (conf_shape_result n rest r hc).1
    have h1 := conf_shape_fd n rest r hc
    have h2 := conf_shape_decls n rest r hc
    simp only [opened_ok_open, h0]
    refine ⟨?_, ?_⟩
    · intro e he fd hfd
      rcases List.mem_cons.1 he with rfl | he
      · simp [open_of, Call.fd] at hfd
      · rw [h1 e he fd hfd]
    · intro fd hfd
      obtain rfl : (n : Int) = fd := by simpa using hfd
      simpa [List.filter, open_of, Call.is_declaration, Call.is_ev_decl, Call.is_key_decl,
        Call.is_abs_decl] using h2
  | second e1 n rest r hc =>
    have h0 := (conf_shape_result n rest r hc).1
    have h1 := conf_shape_fd n rest r hc
    have h2 := conf_shape_decls n rest r hc
    simp only [opened_failed_open, opened_ok_open, h0]
    refine ⟨?_, ?_⟩
    · intro e he fd hfd
      rcases List.mem_cons.1 he with rfl | he
      · simp [open_of, Call.fd] at hfd
      rcases List.mem_cons.1 he with rfl | he
      · simp [open_of, Call.fd] at hfd
      · rw [h1 e he fd hfd]
    · intro fd hfd
      obtain rfl : (n : Int) = fd := by simpa using hfd
      simpa [List.filter, open_of, Call.is_declaration, Call.is_ev_decl, Call.is_key_decl,
        Call.is_abs_decl] using h2
  | third e1 e2 n rest r hc =>
    have h0 := (conf_shape_result n rest r hc).1
    have h1 := conf_shape_fd n rest r hc
    have h2 := conf_shape_decls n rest r hc
    simp only [opened_failed_open, opened_ok_open, h0]
    refine ⟨?_, ?_⟩
    · intro e he fd hfd
      rcases List.mem_cons.1 he with rfl | he
      · simp [open_of, Call.fd] at hfd
      rcases List.mem_cons.1 he with rfl | he
      · simp [open_of, Call.fd] at hfd
      rcases List.mem_cons.1 he with rfl | he
      · simp [open_of, Call.fd] at hfd
      · rw [h1 e he fd hfd]
    · intro fd hfd
      obtain rfl : (n : Int) = fd := by simpa using hfd
      simpa [List.filter, open_of, Call.is_declaration, Call.is_ev_decl, Call.is_key_decl,
        Call.is_abs_decl] using h2

/-- C9. Ordering of the creation protocol.  In every run of `nativeInit`: the
`open` calls are the candidate paths `/dev/uinput`, `/dev/input/uinput`,
`/dev/misc/uinput` in this order, each with `O_WRONLY | O_NONBLOCK`, and
everything issued before an `open` is an `open` that failed (no path is tried
once one has opened, and nothing precedes the opening); a failed `open` of
the first or the second path is followed at once by the `open` of the next
path, so that when no `open` succeeded all three paths were tried; every call on a
descriptor is on the one channel opened, and the capability declarations
issued are an initial part of the list event classes, key codes, axis codes on
that channel; after the descriptor write no declaration is issued, and before
it each of the three event classes was declared successfully; after the
commit directive no write and no declaration is issued, and before it a
descriptor write succeeded. -/
theorem nativeInit_protocol_order {σ : Type} (sys : Sys σ) (w : World σ) :
    uinput_paths = ["/dev/uinput", "/dev/input/uinput", "/dev/misc/uinput"] ∧
    calls ((syscalls (issued (nativeInit sys) w)).filter (fun e => e.call.is_open)) <+:
      uinput_paths.map (fun p => Call.sys_open p (O_WRONLY ||| O_NONBLOCK)) ∧
    (∀ pre e post, syscalls (issued (nativeInit sys) w) = pre ++ e :: post →
      e.call.is_open = true → ∀ x ∈ pre, x.call.is_open = true ∧ x.reply.failed = true) ∧
    (∀ pre e post, syscalls (issued (nativeInit sys) w) = pre ++ e :: post →
      e.call.is_open = true → e.reply.failed = true → pre.length + 1 < uinput_paths.length →
      ∃ x post', post = x :: post' ∧ x.call.is_open = true ∧
        x.call.path = uinput_paths.get? (pre.length + 1)) ∧
    ((∀ e ∈ syscalls (issued (nativeInit sys) w), e.call.is_open = true →
        e.reply.failed = true) →
      calls ((syscalls (issued (nativeInit sys) w)).filter (fun e => e.call.is_open)) =
        uinput_paths.map (fun p => Call.sys_open p (O_WRONLY ||| O_NONBLOCK))) ∧
    (∀ e ∈ syscalls (issued (nativeInit sys) w), ∀ fd, e.call.fd = some fd →
      opened (syscalls (issued (nativeInit sys) w)) = [fd]) ∧
    (∀ fd, opened (syscalls (issued (nativeInit sys) w)) = [fd] →
      calls ((syscalls (issued (nativeInit sys) w)).filter (fun e => e.call.is_declaration)) <+:
        declarations fd) ∧
    (∀ pre e post, syscalls (issued (nativeInit sys) w) = pre ++ e :: post →
      e.call.is_write = true →
        (∀ x ∈ post, x.call.is_declaration = false) ∧
        (∀ c ∈ event_classes, ∃ x ∈ pre,
          x.call.declares_event c = true ∧ x.reply.failed = false)) ∧
    (∀ pre e post, syscalls (issued (nativeInit sys) w) = pre ++ e :: post →
      e.call.is_commit = true →
        (∀ x ∈ post, x.call.is_write = false ∧ x.call.is_declaration = false) ∧
        (∃ x ∈ pre, x.call.is_write = true ∧ x.reply.failed = false)) := by
  have h := nativeInit_shape sys w
  have ha := (all_splits_iff _ _).1 (shape_opens_first _ _ h)
  have hb := (all_splits_iff _ _).1 (shape_write_order _ _ h)
  have hc := (all_splits_iff _ _).1 (shape_commit_order _ _ h)
  have hd := (all_splits_iff _ _).1 (shape_fallback _ _ h)
  refine ⟨rfl, shape_open_calls _ _ h, ?_, ?_, shape_all_tried _ _ h, (init_shape_fd _ _ h).1,
    (init_shape_fd _ _ h).2, ?_, ?_⟩
  · intro pre e post hs hq
    have := ha pre e post hs
    simpa [hq] using this
  · intro pre e post hs hq hr hl
    have := hd pre e post hs
    have hb : Nat.blt (pre.length + 1) uinput_paths.length = true := by
      simpa [Nat.blt_eq] using hl
    simp only [hq, hr, List.length_reverse, hb, Bool.and_self, Bool.not_true,
      Bool.false_or] at this
    cases post with
    | nil => cases this
    | cons x post' =>
      simp only [Bool.and_eq_true, beq_iff_eq] at this
      exact ⟨x, post', rfl, this.1, this.2⟩
  · intro pre e post hs hq
    have := hb pre e post hs
    simpa [hq] using this
  · intro pre e post hs hq
    have := hc pre e post hs
    simpa [hq] using this

/-- Witness of C9: in the environment where every call succeeds the channel 3
is opened at the first path, all 22 declarations are issued on it in the
order of `declarations`, and the commit directive is issued.  Where the
primary node is missing, the failed `open` of `/dev/uinput` is followed by
the `open` of `/dev/input/uinput`, which succeeds, and no third path is
tried.  Where only the last node exists all three paths are tried and the
third one opens.  Where no node exists all three paths are tried. -/
theorem nativeInit_protocol_order_witness :
    (opened (syscalls (issued (nativeInit ideal) world0)) = [3] ∧
      calls ((syscalls (issued (nativeInit ideal) world0)).filter
        (fun e => e.call.is_declaration)) <+: declarations 3 ∧
      (calls ((syscalls (issued (nativeInit ideal) world0)).filter
        (fun e => e.call.is_declaration))).length = 22 ∧
      (syscalls (issued (nativeInit ideal) world0)).any (fun e => e.call.is_commit) = true) ∧
    ((syscalls (issued (nativeInit primary_missing) world0)).take 2 =
        [⟨.sys_open "/dev/uinput" 2049, .error ⟨2, by decide⟩⟩,
          ⟨.sys_open "/dev/input/uinput" 2049, .ok 3⟩] ∧
      (∃ x post', (syscalls (issued (nativeInit primary_missing) world0)).drop 1 = x :: post' ∧
        x.call.is_open = true ∧ x.call.path = uinput_paths.get? 1) ∧
      calls ((syscalls (issued (nativeInit primary_missing) world0)).filter
        (fun e => e.call.is_open)) =
          [.sys_open "/dev/uinput" 2049, .sys_open "/dev/input/uinput" 2049] ∧
      result (nativeInit primary_missing) world0 = 3) ∧
    (calls ((syscalls (issued (nativeInit only_misc) world0)).filter
        (fun e => e.call.is_open)) =
          [.sys_open "/dev/uinput" 2049, .sys_open "/dev/input/uinput" 2049,
            .sys_open "/dev/misc/uinput" 2049] ∧
      opened (syscalls (issued (nativeInit only_misc) world0)) = [3] ∧
      result (nativeInit only_misc) world0 = 3) ∧
    calls ((syscalls (issued (nativeInit no_device) world0)).filter
      (fun e => e.call.is_open)) =
        uinput_paths.map (fun p => Call.sys_open p (O_WRONLY ||| O_NONBLOCK)) :=
  ⟨⟨by decide, (nativeInit_protocol_order ideal world0).2.2.2.2.2.2.1 3 (by decide), by decide,
      by decide⟩,
    ⟨by decide,
      (nativeInit_protocol_order primary_missing world0).2.2.2.1 []
        ⟨.sys_open "/dev/uinput" 2049, .error ⟨2, by decide⟩⟩
        ((syscalls (issued (nativeInit primary_missing) world0)).drop 1)
        (by decide) (by decide) (by decide) (by decide),
      by decide, by decide⟩,
    ⟨by decide, by decide, by decide⟩,
    (nativeInit_protocol_order no_device world0).2.2.2.2.1 (by decide)⟩

/-! ## Creation: the descriptor record -/

theorem written_descriptors_syscalls (tr : List Entry) :
    written_descriptors (syscalls tr) = written_descriptors tr := by
  induction tr with
  | nil => rfl
  | cons e tl ih =>
    obtain ⟨c, r⟩ := e
    cases c <;>
      simp_all [written_descriptors, syscalls, List.filter, Call.is_syscall, List.filterMap_cons]

theorem shape_written (tr : List Entry) (r : Int) (h : InitShape tr r) :
    written_descriptors tr = [] ∨ written_descriptors tr = [xbox360_descriptor] := by
  cases h with
  | unavailable e1 e2 e3 => exact Or.inl rfl
  | first n rest r hc => cases hc <;> first | exact Or.inl rfl | exact Or.inr rfl
  | second e1 n rest r hc => cases hc <;> first | exact Or.inl rfl | exact Or.inr rfl
  | third e1 e2 n rest r hc => cases hc <;> first | exact Or.inl rfl | exact Or.inr rfl

/-- C7. The device descriptor `nativeInit` writes is the fixed record of the
specification.  Whatever the environment does, a run writes no descriptor or
exactly one, and that one is `xbox360_descriptor` (and it is written in the
environment where every call succeeds).  That record has the name
"Xbox 360 Controller (Virtual)" followed by NUL bytes up to the 80 bytes of
the field, bus type `BUS_VIRTUAL`, vendor 0x045e, product 0x028e, version
0x0110, no force-feedback effects; four arrays of `ABS_CNT` entries holding,
for the four stick axes, min -32768, max 32767, fuzz 16, flat 128, for the two
trigger axes 0, 255, 0, 0, for the two hat axes -1, 1, 0, 0, and 0 at every
other index; and min is at most max for each of the eight declared axes. -/
theorem nativeInit_descriptor_fixed :
    (∀ (σ : Type) (sys : Sys σ) (w : World σ),
      written_descriptors (issued (nativeInit sys) w) = [] ∨
      written_descriptors (issued (nativeInit sys) w) = [xbox360_descriptor]) ∧
    written_descriptors (issued (nativeInit ideal) world0) = [xbox360_descriptor] ∧
    xbox360_descriptor.name.length = UINPUT_MAX_NAME_SIZE ∧
    UINPUT_MAX_NAME_SIZE = 80 ∧
    xbox360_descriptor.name.takeWhile (fun c => c ≠ Char.ofNat 0) =
      "Xbox 360 Controller (Virtual)".toList ∧
    (∀ c ∈ xbox360_descriptor.name.drop 29, c = Char.ofNat 0) ∧
    xbox360_descriptor.id =
      { bustype := BUS_VIRTUAL, vendor := 0x045e, product := 0x028e, version := 0x0110 } ∧
    xbox360_descriptor.ff_effects_max = 0 ∧
    (xbox360_descriptor.absmin.length = ABS_CNT ∧ xbox360_descriptor.absmax.length = ABS_CNT ∧
      xbox360_descriptor.absfuzz.length = ABS_CNT ∧
      xbox360_descriptor.absflat.length = ABS_CNT) ∧
    (∀ i ∈ [ABS_X, ABS_Y, ABS_RX, ABS_RY],
      xbox360_descriptor.absmin[i]? = some (-32768) ∧
      xbox360_descriptor.absmax[i]? = some 32767 ∧
      xbox360_descriptor.absfuzz[i]? = some 16 ∧
      xbox360_descriptor.absflat[i]? = some 128) ∧
    (∀ i ∈ [ABS_Z, ABS_RZ],
      xbox360_descriptor.absmin[i]? = some 0 ∧
      xbox360_descriptor.absmax[i]? = some 255 ∧
      xbox360_descriptor.absfuzz[i]? = some 0 ∧
      xbox360_descriptor.absflat[i]? = some 0) ∧
    (∀ i ∈ [ABS_HAT0X, ABS_HAT0Y],
      xbox360_descriptor.absmin[i]? = some (-1) ∧
      xbox360_descriptor.absmax[i]? = some 1 ∧
      xbox360_descriptor.absfuzz[i]? = some 0 ∧
      xbox360_descriptor.absflat[i]? = some 0) ∧
    (∀ i, i < ABS_CNT → i ∉ axis_codes →
      xbox360_descriptor.absmin[i]? = some 0 ∧
      xbox360_descriptor.absmax[i]? = some 0 ∧
      xbox360_descriptor.absfuzz[i]? = some 0 ∧
      xbox360_descriptor.absflat[i]? = some 0) ∧
    (∀ i ∈ axis_codes,
      xbox360_descriptor.absmin.getD i 0 ≤ xbox360_descriptor.absmax.getD i 0) := by
  refine ⟨?_, by decide, by decide, by decide, by decide, by decide, by decide, by decide,
    by decide, by decide, by decide, by decide, by decide, by decide⟩
  intro σ sys w
  have h := shape_written _ _ (nativeInit_shape sys w)
  rwa [written_descriptors_syscalls] at h

/-! ## Creation: the key declarations are best-effort -/

theorem ko_pure {σ α : Type} (a : α) : KernelOnly (pure a : M σ α) :=
  fun _ _ _ _ _ => ⟨rfl, rfl⟩

theorem ko_call {σ : Type} (sys : Sys σ) (c : Call) : KernelOnly (call sys c) :=
  fun _ _ _ _ _ => ⟨rfl, rfl⟩

theorem ko_log {σ : Type} (sys : Sys σ) (l : LogLevel) (s : String) : KernelOnly (log sys l s) :=
  fun _ _ _ _ _ => ⟨rfl, rfl⟩

theorem ko_bind {σ α β : Type} (m : M σ α) (f : α → M σ β) (hm : KernelOnly m)
    (hf : ∀ a, KernelOnly (f a)) : KernelOnly (m >>= f) := by
  intro k e e' t t'
  have h := hm k e e' t t'
  simp only [bind_apply]
  generalize m ⟨k, e, t⟩ = p at h ⊢
  generalize m ⟨k, e', t'⟩ = q at h ⊢
  obtain ⟨a1, k1, e1, t1⟩ := p
  obtain ⟨a2, k2, e2, t2⟩ := q
  simp only at h
  obtain ⟨rfl, rfl⟩ := h
  exact hf a1 k1 e1 e2 t1 t2

theorem tf_pure {σ α : Type} (a : α) : TraceFree (pure a : M σ α) :=
  fun _ _ _ _ => ⟨rfl, rfl, rfl⟩

theorem tf_call {σ : Type} (sys : Sys σ) (c : Call) : TraceFree (call sys c) :=
  fun _ _ _ _ => ⟨rfl, rfl, rfl⟩

theorem tf_log {σ : Type} (sys : Sys σ) (l : LogLevel) (s : String) : TraceFree (log sys l s) :=
  fun _ _ _ _ => ⟨rfl, rfl, rfl⟩

theorem tf_get_errno {σ : Type} : TraceFree (get_errno : M σ Int) :=
  fun _ _ _ _ => ⟨rfl, rfl, rfl⟩

theorem tf_bind {σ α β : Type} (m : M σ α) (f : α → M σ β) (hm : TraceFree m)
    (hf : ∀ a, TraceFree (f a)) : TraceFree (m >>= f) := by
  intro k e t t'
  have h := hm k e t t'
  simp only [bind_apply]
  generalize m ⟨k, e, t⟩ = p at h ⊢
  generalize m ⟨k, e, t'⟩ = q at h ⊢
  obtain ⟨a1, k1, e1, t1⟩ := p
  obtain ⟨a2, k2, e2, t2⟩ := q
  simp only at h
  obtain ⟨rfl, rfl, rfl⟩ := h
  exact hf a1 k1 e1 t1 t2

/-- After a call that failed, `errno` is the error of that call whatever it
was before: what follows needs to be independent of the trace only. -/
theorem ko_call_branch {σ α : Type} (sys : Sys σ) (c : Call) (a b : M σ α)
    (ha : TraceFree a) (hb : KernelOnly b) :
    KernelOnly (call sys c >>= fun r => if r < 0 then a else b) := by
  intro k e e' t t'
  have key : ∀ p : Reply × σ, sys.step k c = p →
      ((call sys c >>= fun r => if r < 0 then a else b) ⟨k, e, t⟩).1 =
        ((call sys c >>= fun r => if r < 0 then a else b) ⟨k, e', t'⟩).1 ∧
      ((call sys c >>= fun r => if r < 0 then a else b) ⟨k, e, t⟩).2.kernel =
        ((call sys c >>= fun r => if r < 0 then a else b) ⟨k, e', t'⟩).2.kernel := by
    intro p hp
    obtain ⟨r, k1⟩ := p
    simp only [bind_apply, call_apply, hp]
    cases r with
    | ok n =>
      have : ¬ ((n : Int) < 0) := by omega
      simp only [Reply.ret, this, if_false, Reply.errnoAfter]
      exact hb k1 e e' _ _
    | error x =>
      simp only [Reply.ret, Reply.errnoAfter]
      have := ha k1 x.val (t ++ [⟨c, .error x⟩]) (t' ++ [⟨c, .error x⟩])
      simpa using ⟨this.1, this.2.1⟩
  exact key _ rfl

theorem kernelOnly_result {σ α : Type} (m : M σ α) (h : KernelOnly m) (w w' : World σ)
    (hk : w.kernel = w'.kernel) : (m w).1 = (m w').1 := by
  obtain ⟨k, e, t⟩ := w
  obtain ⟨k', e', t'⟩ := w'
  simp only at hk
  subst hk
  exact (h k e e' t t').1

theorem ko_set_abs_bits {σ : Type} (sys : Sys σ) (fd : Int) (d : uinput_user_dev) :
    KernelOnly (set_abs_bits sys fd d) := by
  unfold set_abs_bits ioctl
  repeat' (first
    | apply ko_log
    | apply ko_call
    | apply ko_pure
    | apply ko_bind
    | intro _)

theorem ko_write_and_create {σ : Type} (sys : Sys σ) (fd : Int) (d : uinput_user_dev) :
    KernelOnly (write_and_create sys fd d) := by
  unfold write_and_create ioctl0
  repeat' (first
    | apply ko_call_branch
    | apply ko_log
    | apply ko_pure
    | apply tf_log
    | apply tf_call
    | apply tf_get_errno
    | apply tf_pure
    | apply tf_bind
    | apply ko_bind
    | intro _)

theorem call_override {σ : Type} (sys : Sys σ) (f : σ → Call → Reply) (c : Call)
    (h : c.is_key_decl = false) : call (override_keys sys f) c = call sys c := by
  funext w
  simp [call, override_keys, h]

theorem call_override_open {σ : Type} (sys : Sys σ) (f : σ → Call → Reply) (p : String)
    (fl : Nat) : call (override_keys sys f) (.sys_open p fl) = call sys (.sys_open p fl) :=
  call_override _ _ _ rfl

theorem call_override_ev {σ : Type} (sys : Sys σ) (f : σ → Call → Reply) (fd : Int)
    (a : Option Int) :
    call (override_keys sys f) (.sys_ioctl fd .UI_SET_EVBIT a) =
      call sys (.sys_ioctl fd .UI_SET_EVBIT a) :=
  call_override _ _ _ rfl

theorem call_override_abs {σ : Type} (sys : Sys σ) (f : σ → Call → Reply) (fd : Int)
    (a : Option Int) :
    call (override_keys sys f) (.sys_ioctl fd .UI_SET_ABSBIT a) =
      call sys (.sys_ioctl fd .UI_SET_ABSBIT a) :=
  call_override _ _ _ rfl

theorem call_override_create {σ : Type} (sys : Sys σ) (f : σ → Call → Reply) (fd : Int)
    (a : Option Int) :
    call (override_keys sys f) (.sys_ioctl fd .UI_DEV_CREATE a) =
      call sys (.sys_ioctl fd .UI_DEV_CREATE a) :=
  call_override _ _ _ rfl

theorem call_override_write {σ : Type} (sys : Sys σ) (f : σ → Call → Reply) (fd : Int)
    (b : Payload) (n : Nat) :
    call (override_keys sys f) (.sys_write fd b n) = call sys (.sys_write fd b n) :=
  call_override _ _ _ rfl

theorem call_override_close {σ : Type} (sys : Sys σ) (f : σ → Call → Reply) (fd : Int) :
    call (override_keys sys f) (.sys_close fd) = call sys (.sys_close fd) :=
  call_override _ _ _ rfl

theorem log_override {σ : Type} (sys : Sys σ) (f : σ → Call → Reply) (l : LogLevel)
    (s : String) : log (override_keys sys f) l s = log sys l s := by
  unfold log
  rw [call_override sys f (.android_log l s) rfl]

theorem open_loop_override {σ : Type} (sys : Sys σ) (f : σ → Call → Reply)
    (ps : List String) (fd : Int) :
    open_loop (override_keys sys f) ps fd = open_loop sys ps fd := by
  induction ps generalizing fd with
  | nil => rfl
  | cons p ps ih =>
    simp only [open_loop, log_override, call_override_open, ih]

theorem set_abs_bits_override {σ : Type} (sys : Sys σ) (f : σ → Call → Reply) (fd : Int)
    (d : uinput_user_dev) :
    set_abs_bits (override_keys sys f) fd d = set_abs_bits sys fd d := by
  unfold set_abs_bits ioctl
  simp only [log_override, call_override_abs]

theorem write_and_create_override {σ : Type} (sys : Sys σ) (f : σ → Call → Reply) (fd : Int)
    (d : uinput_user_dev) :
    write_and_create (override_keys sys f) fd d = write_and_create sys fd d := by
  unfold write_and_create ioctl0
  simp only [log_override, call_override_write, call_override_close, call_override_create]

theorem set_key_bits_override_kernel {σ : Type} (sys : Sys σ) (f : σ → Call → Reply)
    (fd : Int) (w : World σ) :
    (set_key_bits (override_keys sys f) fd w).2.kernel = (set_key_bits sys fd w).2.kernel := by
  unfold set_key_bits ioctl
  simp only [log_override]
  simp [bind_apply, pure_apply, call_apply, log, override_keys, Call.is_key_decl]

/-- The result of `nativeInit` does not depend on the replies to the per-key
declarations. -/
theorem nativeInit_override {σ : Type} (sys : Sys σ) (f : σ → Call → Reply) (w : World σ) :
    (nativeInit (override_keys sys f) w).1 = (nativeInit sys w).1 := by
  unfold nativeInit configure_device ioctl
  simp only [log_override, open_loop_override, call_override_ev, call_override_close,
    set_abs_bits_override, write_and_create_override]
  simp only [bind_apply, ite_apply]
  split
  · rfl
  split
  · rfl
  · exact kernelOnly_result _
      (ko_bind _ _ (ko_set_abs_bits sys _ _) (fun d => ko_write_and_create sys _ d)) _ _
      (set_key_bits_override_kernel sys f _ _)

theorem conf_shape_keys (fd : Int) (tr : List Entry) (r : Int) (h : ConfShape fd tr r)
    (pre : List Entry) (hpre : ∀ x ∈ pre, x.call.is_open = true)
    (hev : event_classes.all (fun c =>
      (pre ++ tr).any (fun x => x.call.declares_event c && !x.reply.failed)) = true) :
    calls ((pre ++ tr).filter (fun e => e.call.is_key_decl)) =
      key_codes.map (fun c => Call.sys_ioctl fd .UI_SET_KEYBIT (some (c : Int))) := by
  have hp1 : pre.filter (fun e => e.call.is_key_decl) = [] := by
    rw [List.filter_eq_nil_iff]
    intro x hx
    have := hpre x hx
    cases hc : x.call <;> simp_all [Call.is_open, Call.is_key_decl]
  have hp2 : ∀ c, pre.any (fun x => x.call.declares_event c && !x.reply.failed) = false := by
    intro c
    rw [List.any_eq_false]
    intro x hx
    have := hpre x hx
    cases hc : x.call <;> simp_all [Call.is_open, Call.declares_event]
  simp only [List.filter_append, hp1, List.nil_append]
  simp only [List.any_append, hp2, Bool.false_or] at hev
  cases h <;>
    first
    | rfl
    | exact absurd (show (false : Bool) = true from Eq.trans rfl hev) (by decide)

/-- C6. Per-key declarations are best-effort.  The key codes are the eleven
codes `BTN_A` ... `BTN_THUMBR`.  In every run of `nativeInit` in which each of
the three event classes was declared successfully, the per-key declarations
issued are exactly those of the eleven codes, in order, on the channel opened,
whatever replies they get.  And the result of `nativeInit` is the same in the
environment `override_keys sys f`, which answers the per-key declarations as
`f` says and everything else as `sys` does, as in `sys`. -/
theorem nativeInit_keys_best_effort {σ : Type} (sys : Sys σ) (f : σ → Call → Reply)
    (w : World σ) :
    key_codes = [BTN_A, BTN_B, BTN_X, BTN_Y, BTN_TL, BTN_TR, BTN_SELECT, BTN_START, BTN_MODE,
      BTN_THUMBL, BTN_THUMBR] ∧
    ((∀ c ∈ event_classes, ∃ x ∈ syscalls (issued (nativeInit sys) w),
        x.call.declares_event c = true ∧ x.reply.failed = false) →
      ∀ fd, opened (syscalls (issued (nativeInit sys) w)) = [fd] →
        calls ((syscalls (issued (nativeInit sys) w)).filter (fun e => e.call.is_key_decl)) =
          key_codes.map (fun c => Call.sys_ioctl fd .UI_SET_KEYBIT (some (c : Int)))) ∧
    result (nativeInit (override_keys sys f)) w = result (nativeInit sys) w := by
  refine ⟨rfl, ?_, nativeInit_override sys f w⟩
  intro hev fd hfd
  have hev' : event_classes.all (fun c => (syscalls (issued (nativeInit sys) w)).any
      (fun x => x.call.declares_event c && !x.reply.failed)) = true := by
    simpa using hev
  have h := nativeInit_shape sys w
  revert hev' hfd
  generalize syscalls (issued (nativeInit sys) w) = tr at h
  generalize result (nativeInit sys) w = r at h
  intro hfd hev'
  cases h with
  | unavailable e1 e2 e3 => exact absurd hfd (by simp [opened, open_of])
  | first n rest r hc =>
    have h0 := (conf_shape_result n rest r hc).1
    obtain rfl : (n : Int) = fd := by simpa [opened_ok_open, h0] using hfd
    exact conf_shape_keys _ rest r hc [_] (by simp [open_of, Call.is_open]) hev'
  | second e1 n rest r hc =>
    have h0 := (conf_shape_result n rest r hc).1
    obtain rfl : (n : Int) = fd := by
      simpa [opened_ok_open, opened_failed_open, h0] using hfd
    exact conf_shape_keys _ rest r hc [_, _] (by simp [open_of, Call.is_open]) hev'
  | third e1 e2 n rest r hc =>
    have h0 := (conf_shape_result n rest r hc).1
    obtain rfl : (n : Int) = fd := by
      simpa [opened_ok_open, opened_failed_open, h0] using hfd
    exact conf_shape_keys _ rest r hc [_, _, _] (by simp [open_of, Call.is_open]) hev'

/-- Witness of C6: in the environment where every call succeeds, and in the
one that differs from it by rejecting every key declaration with `EINVAL`
(22), the eleven key declarations are issued on channel 3 and the result is
the same. -/
theorem nativeInit_keys_best_effort_witness :
    calls ((syscalls (issued (nativeInit ideal) world0)).filter
        (fun e => e.call.is_key_decl)) =
      key_codes.map (fun c => Call.sys_ioctl 3 .UI_SET_KEYBIT (some (c : Int))) ∧
    result (nativeInit (override_keys ideal (fun _ _ => .error ⟨22, by decide⟩))) world0 =
      result (nativeInit ideal) world0 ∧
    (∃ e ∈ issued (nativeInit (override_keys ideal (fun _ _ => .error ⟨22, by decide⟩))) world0,
      e.call.is_key_decl = true ∧ e.reply.failed = true) :=
  ⟨(nativeInit_keys_best_effort ideal (fun _ _ => .error ⟨22, by decide⟩) world0).2.1
      (by decide) 3 (by decide),
    (nativeInit_keys_best_effort ideal (fun _ _ => .error ⟨22, by decide⟩) world0).2.2,
    by decide⟩

/-! ## Event injection -/

/-- A run of `nativeSendEvent` on a non-negative descriptor: one `write` of
the record, and the result tells whether that `write` returned an error. -/
theorem nativeSendEvent_wp {σ : Type} (sys : Sys σ) (fd type code value : Int) (w : World σ)
    (h : 0 ≤ fd) :
    wp (nativeSendEvent sys fd type code value)
      (fun b w' => ∃ new rp, w'.trace = w.trace ++ new ∧
        syscalls new = [⟨.sys_write fd
          (.event { time_sec := 0, time_usec := 0, type := u16 type, code := u16 code,
                    value := value }) sizeof_input_event, rp⟩] ∧
        b = !rp.failed) w := by
  obtain ⟨k0, e0, t0⟩ := w
  unfold nativeSendEvent send_event
  rw [if_neg (by omega)]
  apply wp_bind
  apply wp_call_branch
  · intro e k
    apply wp_bind; apply wp_log; intro rl k1
    apply wp_bind; apply wp_get_errno
    apply wp_pure
    rw [if_pos (by
      have := Reply.errnoAfter_pos rl _ e.property
      omega)]
    apply wp_pure
    exact ⟨_, _, (by dsimp only; simp only [List.append_assoc]; rfl), (by rfl), (by rfl)⟩
  · intro n k
    apply wp_pure
    rw [if_neg (by omega)]
    apply wp_pure
    exact ⟨_, _, (by rfl), (by rfl), (by rfl)⟩

/-- A run of `nativeSendEvent` on a negative descriptor: no system call. -/
theorem nativeSendEvent_wp_neg {σ : Type} (sys : Sys σ) (fd type code value : Int)
    (w : World σ) (h : fd < 0) :
    wp (nativeSendEvent sys fd type code value)
      (fun b w' => ∃ new, w'.trace = w.trace ++ new ∧ syscalls new = [] ∧ b = false) w := by
  obtain ⟨k0, e0, t0⟩ := w
  unfold nativeSendEvent send_event
  rw [if_pos h]
  apply wp_bind
  apply wp_bind; apply wp_log; intro rl k1
  apply wp_pure
  rw [if_pos (by omega)]
  apply wp_pure
  exact ⟨_, (by rfl), (by rfl), (by rfl)⟩

theorem syscalls_no_write (tr : List Entry) (h : syscalls tr = []) :
    ∀ e ∈ tr, e.call.is_write = false := by
  intro e he
  cases hc : e.call with
  | sys_write fd b n =>
    have : e ∈ syscalls tr := by
      simp [syscalls, he, hc, Call.is_syscall]
    rw [h] at this
    cases this
  | _ => rfl

/-- C1. Invalid-handle guard.  For every negative `fd` and every type, code
and value, `nativeSendEvent` returns false (`send_event` returns -1), and the
run issues no system call: in particular no entry it adds to the trace is a
`write`, on any descriptor. -/
theorem send_event_invalid_handle {σ : Type} (sys : Sys σ) (fd type code value : Int)
    (w : World σ) (h : fd < 0) :
    result (nativeSendEvent sys fd type code value) w = false ∧
    result (send_event sys fd type code value) w = -1 ∧
    syscalls (issued (nativeSendEvent sys fd type code value) w) = [] ∧
    ∀ e ∈ issued (nativeSendEvent sys fd type code value) w, e.call.is_write = false := by
  obtain ⟨new, h1, h2, h3⟩ := (wp_def _ _ _).1 (nativeSendEvent_wp_neg sys fd type code value w h)
  rw [issued_eq _ _ _ h1]
  refine ⟨h3, ?_, h2, syscalls_no_write _ h2⟩
  simp [result, send_event, h, bind_apply, pure_apply]

/-- Witness of C1: the guard at descriptor -1 in the environment `ideal`. -/
theorem send_event_invalid_handle_witness :
    (-1 : Int) < 0 ∧
    (result (nativeSendEvent ideal (-1) 1 304 1) world0 = false ∧
    result (send_event ideal (-1) 1 304 1) world0 = -1 ∧
    syscalls (issued (nativeSendEvent ideal (-1) 1 304 1) world0) = [] ∧
    ∀ e ∈ issued (nativeSendEvent ideal (-1) 1 304 1) world0, e.call.is_write = false) :=
  ⟨by decide, send_event_invalid_handle ideal (-1) 1 304 1 world0 (by decide)⟩

/-- Counterexample to C2 as stated: in the environment `short_write` the one
`write` of `nativeSendEvent` reports 8 bytes written, fewer than the record,
and `nativeSendEvent` returns true. -/
theorem nativeSendEvent_short_write_true :
    syscalls (issued (nativeSendEvent short_write 3 1 304 1) world0) =
      [⟨.sys_write 3 (.event ⟨0, 0, 1, 304, 1⟩) sizeof_input_event, .ok 8⟩] ∧
    (8 : Nat) < sizeof_input_event ∧
    result (nativeSendEvent short_write 3 1 304 1) world0 = true := by
  decide

/-- C2, amended.  For every non-negative `fd` and every type, code and value,
`nativeSendEvent` issues one system call, a `write` on `fd`, and returns true
if and only if that `write` did not return an error (its return value is
non-negative, be it the size of the record or less), false if and only if it
returned an error (a negative value). -/
theorem nativeSendEvent_true_iff_no_error {σ : Type} (sys : Sys σ)
    (fd type code value : Int) (w : World σ) (h : 0 ≤ fd) :
    ∃ c r, syscalls (issued (nativeSendEvent sys fd type code value) w) = [⟨c, r⟩] ∧
      c.is_write = true ∧ c.fd = some fd ∧
      (result (nativeSendEvent sys fd type code value) w = true ↔ 0 ≤ r.ret) ∧
      (result (nativeSendEvent sys fd type code value) w = false ↔ r.ret < 0) := by
  obtain ⟨new, rp, h1, h2, h3⟩ :=
    (wp_def _ _ _).1 (nativeSendEvent_wp sys fd type code value w h)
  rw [issued_eq _ _ _ h1, h2]
  refine ⟨_, rp, rfl, rfl, rfl, ?_, ?_⟩
  · show (nativeSendEvent sys fd type code value w).1 = true ↔ 0 ≤ rp.ret
    rw [h3]
    cases rp <;> simp [Reply.failed, Reply.ret]
  · show (nativeSendEvent sys fd type code value w).1 = false ↔ rp.ret < 0
    rw [h3]
    cases rp <;> simp [Reply.failed, Reply.ret]

/-- Witness of C2, amended: descriptor 3 in the environment `ideal`. -/
theorem nativeSendEvent_true_iff_no_error_witness :
    (0 : Int) ≤ 3 ∧
    ∃ c r, syscalls (issued (nativeSendEvent ideal 3 1 304 1) world0) = [⟨c, r⟩] ∧
      c.is_write = true ∧ c.fd = some 3 ∧
      (result (nativeSendEvent ideal 3 1 304 1) world0 = true ↔ 0 ≤ r.ret) ∧
      (result (nativeSendEvent ideal 3 1 304 1) world0 = false ↔ r.ret < 0) :=
  ⟨by decide, nativeSendEvent_true_iff_no_error ideal 3 1 304 1 world0 (by decide)⟩

/-- Counterexample to C10 as stated: for the 32-bit type 65537 the record
written carries type 1, not the given type (the field is 16 bits wide). -/
theorem nativeSendEvent_type_truncated :
    syscalls (issued (nativeSendEvent ideal 3 65537 304 1) world0) =
      [⟨.sys_write 3 (.event ⟨0, 0, 1, 304, 1⟩) sizeof_input_event, .ok 24⟩] ∧
    ((1 : Nat) : Int) ≠ 65537 := by
  decide

theorem u16_cast (x : Int) : ((u16 x : Nat) : Int) = x % 65536 := by
  unfold u16
  have : 0 ≤ x % 65536 := Int.emod_nonneg _ (by decide)
  omega

/-- C10, amended.  For every non-negative `fd` and every type, code and
value, one `nativeSendEvent` issues exactly one system call: one `write` on
`fd` of one event record, of the size of the record, whose timestamp is zero,
whose value field is the given value and whose type and code fields are the
given type and code reduced modulo 2^16 (the given type and code themselves
when these lie in 0..65535); and the result is true exactly when that `write`
did not fail.  This holds from every world, whatever the trace of earlier
calls. -/
theorem nativeSendEvent_one_write {σ : Type} (sys : Sys σ) (fd type code value : Int)
    (w : World σ) (h : 0 ≤ fd) :
    ∃ r, syscalls (issued (nativeSendEvent sys fd type code value) w) =
        [⟨.sys_write fd
          (.event { time_sec := 0, time_usec := 0, type := u16 type, code := u16 code,
                    value := value }) sizeof_input_event, r⟩] ∧
      result (nativeSendEvent sys fd type code value) w = !r.failed ∧
      ((u16 type : Nat) : Int) = type % 65536 ∧ ((u16 code : Nat) : Int) = code % 65536 ∧
      (0 ≤ type → type < 65536 → ((u16 type : Nat) : Int) = type) ∧
      (0 ≤ code → code < 65536 → ((u16 code : Nat) : Int) = code) := by
  obtain ⟨new, rp, h1, h2, h3⟩ :=
    (wp_def _ _ _).1 (nativeSendEvent_wp sys fd type code value w h)
  rw [issued_eq _ _ _ h1, h2]
  refine ⟨rp, rfl, h3, u16_cast _, u16_cast _, ?_, ?_⟩
  · intro h0 h1
    rw [u16_cast]
    omega
  · intro h0 h1
    rw [u16_cast]
    omega

/-- Witness of C10, amended: descriptor 3, key event `BTN_A` down, in the
environment `ideal`. -/
theorem nativeSendEvent_one_write_witness :
    (0 : Int) ≤ 3 ∧
    ∃ r, syscalls (issued (nativeSendEvent ideal 3 1 304 1) world0) =
        [⟨.sys_write 3
          (.event { time_sec := 0, time_usec := 0, type := u16 1, code := u16 304,
                    value := 1 }) sizeof_input_event, r⟩] ∧
      result (nativeSendEvent ideal 3 1 304 1) world0 = !r.failed ∧
      ((u16 1 : Nat) : Int) = 1 % 65536 ∧ ((u16 304 : Nat) : Int) = 304 % 65536 ∧
      ((0 : Int) ≤ 1 → (1 : Int) < 65536 → ((u16 1 : Nat) : Int) = 1) ∧
      ((0 : Int) ≤ 304 → (304 : Int) < 65536 → ((u16 304 : Nat) : Int) = 304) :=
  ⟨by decide, nativeSendEvent_one_write ideal 3 1 304 1 world0 (by decide)⟩

/-! ## Destruction -/

theorem wp_ite {σ α : Type} (c : Prop) [Decidable c] (a b : M σ α) (Q : α → World σ → Prop)
    (w : World σ) (ha : c → wp a Q w) (hb : ¬ c → wp b Q w) : wp (if c then a else b) Q w := by
  split
  · exact ha ‹_›
  · exact hb ‹_›

/-- A run of `nativeClose` on a non-negative descriptor: the destroy
directive, then the `close`, whatever the two return. -/
theorem nativeClose_wp {σ : Type} (sys : Sys σ) (fd : Int) (w : World σ) (h : 0 ≤ fd) :
    wp (nativeClose sys fd)
      (fun _ w' => ∃ new r1 r2, w'.trace = w.trace ++ new ∧
        syscalls new = [⟨.sys_ioctl fd .UI_DEV_DESTROY none, r1⟩, ⟨.sys_close fd, r2⟩]) w := by
  obtain ⟨k0, e0, t0⟩ := w
  unfold nativeClose ioctl0
  rw [if_neg (by omega)]
  apply wp_bind; apply wp_log; intro rl k1
  apply wp_bind
  apply wp_call; intro r1 k2
  dsimp only
  apply wp_ite <;> intro _ <;>
    (apply wp_bind; apply wp_log; intro _ _
     apply wp_bind; apply wp_call; intro r2 _
     apply wp_ite <;> intro _ <;>
       (apply wp_log; intro _ _
        exact ⟨_, r1, r2, (by dsimp only; simp only [List.append_assoc]; rfl), (by rfl)⟩))

/-- A run of `nativeClose` on a negative descriptor: no system call. -/
theorem nativeClose_wp_neg {σ : Type} (sys : Sys σ) (fd : Int) (w : World σ) (h : fd < 0) :
    wp (nativeClose sys fd)
      (fun _ w' => ∃ new, w'.trace = w.trace ++ new ∧ syscalls new = []) w := by
  obtain ⟨k0, e0, t0⟩ := w
  unfold nativeClose
  rw [if_pos h]
  apply wp_bind; apply wp_log; intro rl k1
  apply wp_pure
  exact ⟨_, (by rfl), (by rfl)⟩

/-- C8. `nativeClose` always completes and never escalates a failure.  It is
a total function: from every world it returns (the unit value) and leaves a
world.  For a negative `fd` it issues no system call at all; for a
non-negative `fd` its system calls are exactly the destroy directive
`UI_DEV_DESTROY` on `fd` followed by one `close` of `fd`, whatever replies the
environment gives to the two. -/
theorem nativeClose_always_completes {σ : Type} (sys : Sys σ) (fd : Int) (w : World σ) :
    (∃ w', nativeClose sys fd w = ((), w')) ∧
    (fd < 0 → syscalls (issued (nativeClose sys fd) w) = []) ∧
    (0 ≤ fd → ∃ r1 r2, syscalls (issued (nativeClose sys fd) w) =
      [⟨.sys_ioctl fd .UI_DEV_DESTROY none, r1⟩, ⟨.sys_close fd, r2⟩]) := by
  refine ⟨⟨(nativeClose sys fd w).2, rfl⟩, ?_, ?_⟩
  · intro h
    obtain ⟨new, h1, h2⟩ := (wp_def _ _ _).1 (nativeClose_wp_neg sys fd w h)
    rw [issued_eq _ _ _ h1, h2]
  · intro h
    obtain ⟨new, r1, r2, h1, h2⟩ := (wp_def _ _ _).1 (nativeClose_wp sys fd w h)
    rw [issued_eq _ _ _ h1, h2]
    exact ⟨r1, r2, rfl⟩

/-- Witness of C8: on the handle -1 no system call is issued; on the handle 3
the destroy directive and the `close` are issued. -/
theorem nativeClose_always_completes_witness :
    syscalls (issued (nativeClose ideal (-1)) world0) = [] ∧
    ∃ r1 r2, syscalls (issued (nativeClose ideal 3) world0) =
      [⟨.sys_ioctl 3 .UI_DEV_DESTROY none, r1⟩, ⟨.sys_close 3, r2⟩] :=
  ⟨(nativeClose_always_completes ideal (-1) world0).2.1 (by decide),
    (nativeClose_always_completes ideal 3 world0).2.2 (by decide)⟩

/-! ## Creation: which failures are fatal -/

/-- Counterexample to C5 as stated: in the environment `axes_rejected` the
declaration of axis `ABS_X` (like that of every axis) fails, and `nativeInit`
still returns the descriptor 3 of the channel, not a negative value. -/
theorem nativeInit_axis_failure_not_fatal :
    (∃ e ∈ issued (nativeInit axes_rejected) world0,
      e.call = Call.sys_ioctl 3 .UI_SET_ABSBIT (some (ABS_X : Int)) ∧ e.reply.failed = true) ∧
    result (nativeInit axes_rejected) world0 = 3 := by
  decide

/-- C5, amended.  Apart from the eleven per-key and the eight per-axis
declarations, creation is all-or-nothing: `nativeInit` returns a negative
value if and only if no candidate path opened or one of the fatal steps (an
event-class declaration, the descriptor write, the commit directive) returned
an error; otherwise it returns a non-negative value. -/
theorem nativeInit_fails_iff_fatal {σ : Type} (sys : Sys σ) (w : World σ) :
    (result (nativeInit sys) w < 0 ↔
      fatal_failure (syscalls (issued (nativeInit sys) w)) = true) ∧
    (0 ≤ result (nativeInit sys) w ↔
      fatal_failure (syscalls (issued (nativeInit sys) w)) = false) := by
  obtain ⟨_, h2, h3⟩ := init_shape_result _ _ (nativeInit_shape sys w)
  cases hf : fatal_failure (syscalls (issued (nativeInit sys) w)) with
  | true =>
    have hr := (h2 hf).1
    exact ⟨⟨fun _ => rfl, fun _ => hr⟩, ⟨fun h => absurd hr (by omega), fun h => by cases h⟩⟩
  | false =>
    obtain ⟨_, n, _, hn⟩ := h3 hf
    have hr : 0 ≤ result (nativeInit sys) w := by omega
    exact ⟨⟨fun h => absurd hr (by omega), fun h => by cases h⟩, ⟨fun _ => rfl, fun _ => hr⟩⟩

/-! ## Sequences of operations over a channel table -/

theorem table_of_cons (tbl : List Int) (e : Entry) (tl : List Entry) :
    table_of tbl (e :: tl) = table_of (table_after tbl e.call e.reply) tl := rfl

theorem table_of_append (tbl : List Int) (a b : List Entry) :
    table_of tbl (a ++ b) = table_of (table_of tbl a) b := by
  simp [table_of, List.foldl_append]

theorem table_of_singleton (tbl : List Int) (e : Entry) :
    table_of tbl [e] = table_after tbl e.call e.reply := rfl

/-- Log statements do not touch the channel table. -/
theorem table_of_syscalls (tbl : List Int) (tr : List Entry) :
    table_of tbl (syscalls tr) = table_of tbl tr := by
  induction tr generalizing tbl with
  | nil => rfl
  | cons e tl ih =>
    obtain ⟨c, r⟩ := e
    cases c <;>
      simp_all [table_of, syscalls, List.filter, Call.is_syscall, table_after]

/-- A call refused by the channel table leaves the table as it is. -/
theorem table_after_refused (tbl : List Int) (c : Call) (h : table_allows tbl c = false) :
    table_after tbl c (.error bad_descriptor) = tbl := by
  cases c with
  | sys_close fd =>
    simp only [table_allows, decide_eq_false_iff_not] at h
    simp only [table_after]
    rw [List.filter_eq_self]
    intro x hx
    simp only [ne_eq, decide_not, Bool.not_eq_eq_eq_not, Bool.not_true, decide_eq_false_iff_not]
    rintro rfl
    exact h hx
  | _ => rfl

theorem allowed_append (tbl : List Int) (a b : List Entry) :
    Allowed tbl (a ++ b) ↔ Allowed tbl a ∧ Allowed (table_of tbl a) b := by
  induction a generalizing tbl with
  | nil => simp [Allowed, table_of]
  | cons e tl ih =>
    show Allowed tbl (e :: (tl ++ b)) ↔ _
    simp only [Allowed, ih, and_assoc, table_of_cons]

/-- Dropping the log statements keeps the calls allowed. -/
theorem allowed_syscalls (tbl : List Int) (tr : List Entry) (h : Allowed tbl tr) :
    Allowed tbl (syscalls tr) := by
  induction tr generalizing tbl with
  | nil => exact h
  | cons e tl ih =>
    obtain ⟨c, r⟩ := e
    obtain ⟨h1, h2⟩ := h
    cases c with
    | android_log l s => exact ih _ h2
    | _ => exact ⟨h1, ih _ h2⟩

theorem tracked_def {σ α : Type} (m : M (σ × List Int) α) (h : Tracked m)
    (w : World (σ × List Int)) :
    ∃ new, (m w).2.trace = w.trace ++ new ∧ (m w).2.kernel.2 = table_of w.kernel.2 new ∧
      Allowed w.kernel.2 new := h w

theorem tracked_pure {σ α : Type} (a : α) : Tracked (pure a : M (σ × List Int) α) :=
  fun _ => ⟨[], by simp [pure_apply], rfl, trivial⟩

theorem tracked_get_errno {σ : Type} : Tracked (get_errno : M (σ × List Int) Int) :=
  fun _ => ⟨[], by simp [get_errno], rfl, trivial⟩

theorem tracked_call {σ : Type} (base : Sys σ) (c : Call) :
    Tracked (call (with_table base) c) := by
  intro w
  obtain ⟨⟨k, tbl⟩, e, t⟩ := w
  refine ⟨[⟨c, ((with_table base).step (k, tbl) c).1⟩], rfl, ?_, ?_, trivial⟩
  · rw [table_of_singleton]
    simp only [call_apply, with_table]
    cases h : table_allows tbl c with
    | true => simp
    | false => simp [table_after_refused _ _ h]
  · simp only [with_table]
    cases h : table_allows tbl c with
    | true => simp
    | false => simp [Reply.failed]

theorem tracked_bind {σ α β : Type} (m : M (σ × List Int) α) (f : α → M (σ × List Int) β)
    (hm : Tracked m) (hf : ∀ a, Tracked (f a)) : Tracked (m >>= f) := by
  intro w
  obtain ⟨n1, h1, h2, h5⟩ := hm w
  obtain ⟨n2, h3, h4, h6⟩ := hf (m w).1 (m w).2
  refine ⟨n1 ++ n2, ?_, ?_, ?_⟩
  · simp only [bind_apply, h3, h1, List.append_assoc]
  · simp only [bind_apply, h4, h2, table_of_append]
  · rw [allowed_append]
    rw [h2] at h6
    exact ⟨h5, h6⟩

theorem tracked_ite {σ α : Type} (c : Prop) [Decidable c] (a b : M (σ × List Int) α)
    (ha : Tracked a) (hb : Tracked b) : Tracked (if c then a else b) := by
  split
  · exact ha
  · exact hb

theorem tracked_log {σ : Type} (base : Sys σ) (l : LogLevel) (s : String) :
    Tracked (log (with_table base) l s) := by
  unfold log
  exact tracked_bind _ _ (tracked_call _ _) (fun _ => tracked_pure _)

theorem tracked_open_loop {σ : Type} (base : Sys σ) (ps : List String) (fd : Int) :
    Tracked (open_loop (with_table base) ps fd) := by
  induction ps generalizing fd with
  | nil => exact tracked_pure _
  | cons p ps ih =>
    simp only [open_loop]
    refine tracked_bind _ _ (tracked_call _ _) (fun r => tracked_ite _ _ _ ?_ ?_)
    · exact tracked_bind _ _ (tracked_log _ _ _) (fun _ => tracked_pure _)
    · exact tracked_bind _ _ (tracked_log _ _ _) (fun _ => ih _)

attribute [irreducible] Tracked

theorem tracked_set_key_bits {σ : Type} (base : Sys σ) (fd : Int) :
    Tracked (set_key_bits (with_table base) fd) := by
  unfold set_key_bits ioctl
  repeat' with_reducible (first
    | apply tracked_log
    | apply tracked_call
    | apply tracked_pure
    | apply tracked_bind
    | intro _)

theorem tracked_set_abs_bits {σ : Type} (base : Sys σ) (fd : Int) (d : uinput_user_dev) :
    Tracked (set_abs_bits (with_table base) fd d) := by
  unfold set_abs_bits ioctl
  repeat' with_reducible (first
    | apply tracked_log
    | apply tracked_call
    | apply tracked_pure
    | apply tracked_bind
    | intro _)

theorem tracked_write_and_create {σ : Type} (base : Sys σ) (fd : Int) (d : uinput_user_dev) :
    Tracked (write_and_create (with_table base) fd d) := by
  unfold write_and_create ioctl0
  repeat' with_reducible (first
    | apply tracked_log
    | apply tracked_call
    | apply tracked_pure
    | apply tracked_get_errno
    | apply tracked_ite
    | apply tracked_bind
    | intro _)

theorem tracked_configure_device {σ : Type} (base : Sys σ) (fd : Int) :
    Tracked (configure_device (with_table base) fd) := by
  unfold configure_device ioctl c_or is_neg
  repeat' with_reducible (first
    | apply tracked_set_key_bits
    | apply tracked_set_abs_bits
    | apply tracked_write_and_create
    | apply tracked_log
    | apply tracked_call
    | apply tracked_pure
    | apply tracked_get_errno
    | apply tracked_ite
    | apply tracked_bind
    | intro _)

theorem tracked_nativeInit {σ : Type} (base : Sys σ) : Tracked (nativeInit (with_table base)) := by
  unfold nativeInit
  refine tracked_bind _ _ (tracked_log _ _ _) (fun _ => ?_)
  refine tracked_bind _ _ (tracked_open_loop _ _ _) (fun fd => ?_)
  refine tracked_ite _ _ _ ?_ (tracked_configure_device _ _)
  exact tracked_bind _ _ (tracked_log _ _ _) (fun _ => tracked_pure _)

theorem tracked_nativeClose {σ : Type} (base : Sys σ) (fd : Int) :
    Tracked (nativeClose (with_table base) fd) := by
  unfold nativeClose ioctl0
  repeat' with_reducible (first
    | apply tracked_log
    | apply tracked_call
    | apply tracked_pure
    | apply tracked_ite
    | apply tracked_bind
    | intro _)

theorem tracked_nativeSendEvent {σ : Type} (base : Sys σ) (fd type code value : Int) :
    Tracked (nativeSendEvent (with_table base) fd type code value) := by
  unfold nativeSendEvent send_event
  repeat' with_reducible (first
    | apply tracked_log
    | apply tracked_call
    | apply tracked_pure
    | apply tracked_get_errno
    | apply tracked_ite
    | apply tracked_bind
    | intro _)

/-- The channel table after `configure_device` on channel `n`: unchanged
when the device is created, without `n` when creation fails. -/
theorem conf_shape_table (n : Nat) (tr : List Entry) (r : Int) (h : ConfShape n tr r)
    (tbl : List Int) :
    (0 ≤ r → r = (n : Int) ∧ table_of tbl tr = tbl) ∧
    (r < 0 → table_of tbl tr = tbl.filter (fun x => x ≠ (n : Int))) := by
  cases h <;> refine ⟨fun h0 => ?_, fun h1 => ?_⟩ <;>
    first
    | omega
    | exact ⟨rfl, rfl⟩
    | rfl

/-- The channel table after `nativeInit`: nothing but the descriptor returned
is added to it. -/
theorem init_shape_table (tr : List Entry) (r : Int) (h : InitShape tr r) (tbl : List Int) :
    (0 ≤ r → ∀ x ∈ table_of tbl tr, x = r ∨ x ∈ tbl) ∧
    (r < 0 → ∀ x ∈ table_of tbl tr, x ∈ tbl) := by
  have key : ∀ (n : Nat) (rest : List Entry), ConfShape n rest r →
      (0 ≤ r → ∀ x ∈ table_of ((n : Int) :: tbl) rest, x = r ∨ x ∈ tbl) ∧
      (r < 0 → ∀ x ∈ table_of ((n : Int) :: tbl) rest, x ∈ tbl) := by
    intro n rest hc
    obtain ⟨h0, h1⟩ := conf_shape_table n rest r hc ((n : Int) :: tbl)
    refine ⟨fun hr x hx => ?_, fun hr x hx => ?_⟩
    · obtain ⟨rfl, ht⟩ := h0 hr
      rw [ht] at hx
      simpa using hx
    · rw [h1 hr] at hx
      simp only [List.mem_filter, List.mem_cons, ne_eq, decide_not, Bool.not_eq_eq_eq_not,
        Bool.not_true, decide_eq_false_iff_not] at hx
      rcases hx with ⟨rfl | hx, hne⟩
      · exact absurd rfl hne
      · exact hx
  cases h with
  | unavailable e1 e2 e3 =>
    refine ⟨fun hr => absurd hr (by decide), fun _ x hx => hx⟩
  | first n rest r hc => exact key n rest hc
  | second e1 n rest r hc => exact key n rest hc
  | third e1 e2 n rest r hc => exact key n rest hc

theorem create_table {σ : Type} (base : Sys σ) (w : World (σ × List Int)) :
    (0 ≤ (nativeInit (with_table base) w).1 →
      ∀ x ∈ (nativeInit (with_table base) w).2.kernel.2,
        x = (nativeInit (with_table base) w).1 ∨ x ∈ w.kernel.2) ∧
    ((nativeInit (with_table base) w).1 < 0 →
      ∀ x ∈ (nativeInit (with_table base) w).2.kernel.2, x ∈ w.kernel.2) := by
  obtain ⟨new, h1, h2, _⟩ := tracked_def _ (tracked_nativeInit base) w
  have hs := nativeInit_shape (with_table base) w
  rw [issued_eq _ _ _ h1] at hs
  have := init_shape_table _ _ hs w.kernel.2
  rw [table_of_syscalls] at this
  rw [h2]
  exact this

theorem destroy_table {σ : Type} (base : Sys σ) (fd : Int) (w : World (σ × List Int)) :
    (fd < 0 → (nativeClose (with_table base) fd w).2.kernel.2 = w.kernel.2) ∧
    (0 ≤ fd → (nativeClose (with_table base) fd w).2.kernel.2 =
      w.kernel.2.filter (fun x => x ≠ fd)) := by
  obtain ⟨new, h1, h2, _⟩ := tracked_def _ (tracked_nativeClose base fd) w
  refine ⟨fun h => ?_, fun h => ?_⟩
  · obtain ⟨new', h3, h4⟩ := (wp_def _ _ _).1 (nativeClose_wp_neg (with_table base) fd w h)
    obtain rfl : new = new' := List.append_cancel_left (h1.symm.trans h3)
    rw [h2, ← table_of_syscalls, h4]
    rfl
  · obtain ⟨new', r1, r2, h3, h4⟩ := (wp_def _ _ _).1 (nativeClose_wp (with_table base) fd w h)
    obtain rfl : new = new' := List.append_cancel_left (h1.symm.trans h3)
    rw [h2, ← table_of_syscalls, h4]
    rfl

/-- Under a channel table a send returns true only on a non-negative handle
that is an open channel, and it leaves the table as it is. -/
theorem send_table {σ : Type} (base : Sys σ) (fd type code value : Int)
    (w : World (σ × List Int)) :
    ((nativeSendEvent (with_table base) fd type code value w).1 = true →
      0 ≤ fd ∧ fd ∈ w.kernel.2) ∧
    (nativeSendEvent (with_table base) fd type code value w).2.kernel.2 = w.kernel.2 := by
  obtain ⟨new, h1, h2, h3⟩ := tracked_def _ (tracked_nativeSendEvent base fd type code value) w
  by_cases hfd : fd < 0
  · obtain ⟨new', h4, h5, h6⟩ :=
      (wp_def _ _ _).1 (nativeSendEvent_wp_neg (with_table base) fd type code value w hfd)
    obtain rfl : new = new' := List.append_cancel_left (h1.symm.trans h4)
    refine ⟨fun h => ?_, ?_⟩
    · rw [h6] at h
      cases h
    · rw [h2, ← table_of_syscalls, h5]
      rfl
  · obtain ⟨new', rp, h4, h5, h6⟩ :=
      (wp_def _ _ _).1 (nativeSendEvent_wp (with_table base) fd type code value w (by omega))
    obtain rfl : new = new' := List.append_cancel_left (h1.symm.trans h4)
    refine ⟨fun h => ?_, ?_⟩
    · have ha := allowed_syscalls _ _ h3
      rw [h5] at ha
      rw [h6] at h
      have hf : rp.failed = false := by simpa using h
      have := ha.1 hf
      exact ⟨by omega, by simpa [table_allows] using this⟩
    · rw [h2, ← table_of_syscalls, h5]
      rfl

theorem run_ops_cons {σ : Type} (sys : Sys σ) (op : Op) (ops : List Op) (w : World σ) :
    (run_ops sys (op :: ops) w).1 =
      (run_op sys op w).1 :: (run_ops sys ops (run_op sys op w).2).1 := rfl

/-- One operation keeps the non-negative descriptors of the channel table
inside the set of live handles. -/
theorem run_op_invariant {σ : Type} (base : Sys σ) (op : Op) (w : World (σ × List Int))
    (live : List Int) (hinv : ∀ x ∈ w.kernel.2, 0 ≤ x → x ∈ live) :
    ∀ x ∈ (run_op (with_table base) op w).2.kernel.2,
      0 ≤ x → x ∈ live_after live [(run_op (with_table base) op w).1] := by
  cases op with
  | create =>
    obtain ⟨h0, h1⟩ := create_table base w
    intro x hx hx0
    change x ∈ (nativeInit (with_table base) w).2.kernel.2 at hx
    change x ∈ live_after live [Obs.created (nativeInit (with_table base) w).1]
    simp only [live_after]
    by_cases hr : 0 ≤ (nativeInit (with_table base) w).1
    · rw [if_pos hr]
      rcases h0 hr x hx with rfl | hx'
      · exact List.mem_cons_self _ _
      · exact List.mem_cons_of_mem _ (hinv x hx' hx0)
    · rw [if_neg hr]
      exact hinv x (h1 (by omega) x hx) hx0
  | send fd type code value =>
    intro x hx hx0
    change x ∈ (nativeSendEvent (with_table base) fd type code value w).2.kernel.2 at hx
    rw [(send_table base fd type code value w).2] at hx
    exact hinv x hx hx0
  | destroy fd =>
    obtain ⟨h0, h1⟩ := destroy_table base fd w
    intro x hx hx0
    change x ∈ (nativeClose (with_table base) fd w).2.kernel.2 at hx
    change x ∈ live_after live [Obs.destroyed fd]
    simp only [live_after, List.mem_filter, ne_eq, decide_not, Bool.not_eq_eq_eq_not,
      Bool.not_true, decide_eq_false_iff_not]
    by_cases hfd : fd < 0
    · rw [h0 hfd] at hx
      exact ⟨hinv x hx hx0, by omega⟩
    · rw [h1 (by omega)] at hx
      simp only [List.mem_filter, ne_eq, decide_not, Bool.not_eq_eq_eq_not, Bool.not_true,
        decide_eq_false_iff_not] at hx
      exact ⟨hinv x hx.1 hx0, hx.2⟩

theorem live_after_cons (live : List Int) (o : Obs) (os : List Obs) :
    live_after live (o :: os) = live_after (live_after live [o]) os := by
  cases o <;> rfl

/-- Along a sequence of operations, from a world whose open non-negative
descriptors are all live, a send returns true only on a non-negative live
handle. -/
theorem run_ops_live {σ : Type} (base : Sys σ) (ops : List Op) :
    ∀ (w : World (σ × List Int)) (live : List Int),
      (∀ x ∈ w.kernel.2, 0 ≤ x → x ∈ live) →
      ∀ (pre post : List Obs) (fd : Int),
        (run_ops (with_table base) ops w).1 = pre ++ Obs.sent fd true :: post →
        0 ≤ fd ∧ fd ∈ live_after live pre := by
  induction ops with
  | nil =>
    intro w live _ pre post fd h
    have : ([] : List Obs) = pre ++ Obs.sent fd true :: post := h
    cases pre <;> simp at this
  | cons op ops ih =>
    intro w live hinv pre post fd h
    rw [run_ops_cons] at h
    cases pre with
    | nil =>
      simp only [List.nil_append, List.cons.injEq] at h
      obtain ⟨h1, _⟩ := h
      cases op with
      | create => cases h1
      | destroy fd' => cases h1
      | send fd' type code value =>
        have h2 : Obs.sent fd' (nativeSendEvent (with_table base) fd' type code value w).1 =
            Obs.sent fd true := h1
        simp only [Obs.sent.injEq] at h2
        obtain ⟨rfl, hb⟩ := h2
        have h3 := (send_table base fd' type code value w).1 hb
        exact ⟨h3.1, hinv _ h3.2 h3.1⟩
    | cons o pre' =>
      simp only [List.cons_append, List.cons.injEq] at h
      obtain ⟨h1, h2⟩ := h
      rw [live_after_cons, ← h1]
      exact ih _ _ (run_op_invariant base op w live hinv) pre' post fd h2

end UInput
